import Mathlib

/-!
Verification of the LedgerTgBot repository (bank-lite-cli ledger core,
plus the two miner-bot accrual variants) against its natural-language
specification.

The Go sources are shallowly embedded:
- `int64` balances and amounts become `Int`; where int64 overflow is the
  point of a claim, the balance arithmetic is modelled exactly with
  two's-complement wrap-around (`wrap64` and the `WithdrawW`/`TransferW`
  variants); id counters become `Nat`; the `u%06d`, `a%06d`, `t%06d` id
  strings are injective images of the numeric counter values, so ids are
  embedded as the underlying `Nat`.
- Go maps (`Snapshot.Users/Accounts/Txs`) become association lists;
  the list order models the (unspecified) map iteration order, and
  creation appends, so list order is also creation order.
- `time.Time` / `time.Duration` values become `Nat` (store timestamps)
  or `ℚ` (accrual arithmetic, seconds); `float64` money in the game
  variants becomes `ℚ`.
- every `time.Now()` inside one operation is modelled by a single `now`
  parameter of that operation.
- file persistence, backups and the Telegram transport are I/O and are
  out of scope; `withWrite` is modelled as the pure state update it
  performs (persistence always succeeds in the model).
-/

namespace LedgerBot

/-- Result of a Go `(value, error)` return: either the value or the error
message string. -/
inductive Res (α : Type) where
  | ok (val : α)
  | err (msg : String)
deriving DecidableEq, Repr

/-- True exactly when the Go call returned a non-nil error. -/
def Res.isErr {α : Type} : Res α → Bool
  | .ok _ => false
  | .err _ => true

/-- Go's `v, err := call(); if err != nil { return ..., err }` pattern:
continue with the value or propagate the error. -/
def resCase {α β : Type} (r : Res α) (onOk : α → β) (onErr : String → β) : β :=
  match r with
  | .ok v => onOk v
  | .err e => onErr e

/-- The same pattern for a store mutation returning `(error, state)`:
continue with the new state or propagate the error with the state the
store was left in. -/
def stepCase {σ β : Type} (r : Res Unit × σ) (onOk : σ → β)
    (onErr : String → σ → β) : β :=
  match r with
  | (.ok _, s1) => onOk s1
  | (.err e, s1) => onErr e s1

/-- Role from internal/domain (part_000): user or admin. -/
inductive Role where
  | user
  | admin
deriving DecidableEq, Repr

/-- domain.Account (part_000): id/owner are the numeric parts of the
`a%06d`/`u%06d` strings; Balance is int64 minor units. The balance is
carried as an unbounded `Int`, which agrees with int64 wherever the
operations keep results in range; where overflow matters (the
non-negativity claim) the mutating operations are additionally modelled
with exact int64 wrap-around (`wrap64`, `WithdrawW`, `TransferW`). -/
structure Account where
  id : Nat
  owner : Nat
  currency : String
  balance : Int
  createdAt : Nat
  closed : Bool
deriving DecidableEq, Repr

/-- domain.User (part_000). PassHash is an opaque capability (bcrypt);
the model stores the password itself as the opaque hash value. -/
structure BUser where
  id : Nat
  username : String
  passHash : String
  createdAt : Nat
  role : Role
  accounts : List Nat
deriving DecidableEq, Repr

/-- domain.TxType (part_000). -/
inductive TxType where
  | deposit
  | withdraw
  | transfer
deriving DecidableEq, Repr

/-- domain.Transaction (part_000). `From`/`To` are optional account ids. -/
structure Transaction where
  id : Nat
  type : TxType
  From : Option Nat
  To : Option Nat
  amount : Int
  currency : String
  note : String
  createdAt : Nat
deriving DecidableEq, Repr

/-- domain.Snapshot (part_000): the whole persisted ledger state. -/
structure Snapshot where
  version : Nat
  users : List (Nat × BUser)
  accounts : List (Nat × Account)
  txs : List (Nat × Transaction)
  nextUser : Nat
  nextAcc : Nat
  nextTx : Nat
  createdAt : Nat
  updatedAt : Nat
deriving DecidableEq, Repr

/-- Lookup in a Go map modelled as an association list. -/
def alookup {α : Type} : List (Nat × α) → Nat → Option α
  | [], _ => none
  | (k2, v) :: rest, k => if k2 = k then some v else alookup rest k

/-- Insertion of a fresh key into a Go map: creation order is modelled by
appending, so list order is creation order. -/
def ainsert {α : Type} (m : List (Nat × α)) (k : Nat) (v : α) : List (Nat × α) :=
  m ++ [(k, v)]

/-- Assignment `m[k] = v` for a key already present: replaces the entry,
keys unchanged. -/
def aupdate {α : Type} (m : List (Nat × α)) (k : Nat) (v : α) : List (Nat × α) :=
  m.map (fun p => if p.1 = k then (k, v) else p)

/-- The empty snapshot created at first startup (FileDB.load on an empty
file): version 1, empty maps, all counters zero. -/
def initSnapshot (now : Nat) : Snapshot :=
  { version := 1, users := [], accounts := [], txs := [],
    nextUser := 0, nextAcc := 0, nextTx := 0, createdAt := now, updatedAt := now }

/-- FileDB.CreateUser: duplicate-id create fails and leaves the state
untouched; otherwise the user is inserted and UpdatedAt refreshed. -/
def createUserStore (s : Snapshot) (now : Nat) (u : BUser) : Res Unit × Snapshot :=
  match alookup s.users u.id with
  | some _ => (.err "user exists", s)
  | none => (.ok (), { s with users := ainsert s.users u.id u, updatedAt := now })

/-- FileDB.GetUserByUsername: first user (in map iteration order) with the
given username, as a copy; ErrNotFound when absent. -/
def getUserByUsername (s : Snapshot) (username : String) : Res BUser :=
  match s.users.find? (fun p => p.2.username == username) with
  | some p => .ok p.2
  | none => .err "not found"

/-- FileDB.GetAccount: a copy of the account, or ErrNotFound. -/
def getAccount (s : Snapshot) (id : Nat) : Res Account :=
  match alookup s.accounts id with
  | some a => .ok a
  | none => .err "not found"

/-- FileDB.CreateAccount: duplicate-id create fails; otherwise inserts the
account and, when the owner exists, appends the account id to the owner's
account list. -/
def createAccountStore (s : Snapshot) (now : Nat) (a : Account) : Res Unit × Snapshot :=
  match alookup s.accounts a.id with
  | some _ => (.err "account exists", s)
  | none =>
    let accounts := ainsert s.accounts a.id a
    let users :=
      match alookup s.users a.owner with
      | some u => aupdate s.users a.owner { u with accounts := u.accounts ++ [a.id] }
      | none => s.users
    (.ok (), { s with accounts := accounts, users := users, updatedAt := now })

/-- FileDB.UpdateAccount: ErrNotFound when the id is absent; otherwise
replaces the stored account and refreshes UpdatedAt. -/
def updateAccountStore (s : Snapshot) (now : Nat) (a : Account) : Res Unit × Snapshot :=
  match alookup s.accounts a.id with
  | none => (.err "not found", s)
  | some _ => (.ok (), { s with accounts := aupdate s.accounts a.id a, updatedAt := now })

/-- FileDB.CreateTx: duplicate-id create fails; otherwise appends. -/
def createTxStore (s : Snapshot) (now : Nat) (t : Transaction) : Res Unit × Snapshot :=
  match alookup s.txs t.id with
  | some _ => (.err "tx exists", s)
  | none => (.ok (), { s with txs := ainsert s.txs t.id t, updatedAt := now })

/-- FileDB.ListAccountsByUser: open (not closed) accounts of the owner. -/
def listAccountsByUser (s : Snapshot) (uid : Nat) : List Account :=
  ((s.accounts.map Prod.snd).filter (fun a => a.owner == uid && !a.closed))

/-- FileDB.NextIDs: reads all three counters plus one, then bumps and
persists all three together, returning the incremented values. -/
def nextIDs (s : Snapshot) (now : Nat) : (Nat × Nat × Nat) × Snapshot :=
  let u := s.nextUser + 1
  let a := s.nextAcc + 1
  let t := s.nextTx + 1
  ((u, a, t), { s with nextUser := u, nextAcc := a, nextTx := t, updatedAt := now })

/-- One outer iteration of FileDB.ListTxByAccount's naive double-loop sort:
walking j over the tail with current value `cur` at position i, swapping
whenever `out[i].CreatedAt.After(out[j].CreatedAt)`. Returns the final
value at position i and the updated tail. -/
def bubbleStep (cur : Transaction) : List Transaction → Transaction × List Transaction
  | [] => (cur, [])
  | x :: xs =>
    if x.createdAt < cur.createdAt then
      let p := bubbleStep x xs
      (p.1, cur :: p.2)
    else
      let p := bubbleStep cur xs
      (p.1, x :: p.2)

theorem bubbleStep_length (cur : Transaction) (l : List Transaction) :
    (bubbleStep cur l).2.length = l.length := by
  induction l generalizing cur with
  | nil => rfl
  | cons x xs ih =>
    simp only [bubbleStep]
    split
    · simpa using ih x
    · simpa using ih cur

/-- The outer loop of the naive sort, fuelled by the number of remaining
outer iterations (one per position, so the fuel is the list length). -/
def naiveSortGo : Nat → List Transaction → List Transaction
  | 0, _ => []
  | _ + 1, [] => []
  | n + 1, x :: xs => (bubbleStep x xs).1 :: naiveSortGo n (bubbleStep x xs).2

/-- The full naive in-place sort of ListTxByAccount: ascending by
CreatedAt only (the swap fires on strict After, so it never orders ties). -/
def naiveSort (l : List Transaction) : List Transaction :=
  naiveSortGo l.length l

/-- FileDB.ListTxByAccount: filter to transactions referencing the account
as sender or receiver, sort ascending by CreatedAt with the naive sort,
then when 0 < limit keep only the last `limit` entries. -/
def listTxByAccount (s : Snapshot) (aid : Nat) (limit : Int) : List Transaction :=
  let out := (s.txs.map Prod.snd).filter
    (fun t => t.From == some aid || t.To == some aid)
  let sorted := naiveSort out
  if 0 < limit ∧ limit < (sorted.length : Int) then
    sorted.drop (sorted.length - limit.toNat)
  else sorted

/-- storage.Rates (rates.go): Pairs maps a currency to the value of one
Base unit in that currency; float64 rates are embedded as ℚ. -/
structure Rates where
  base : String
  pairs : List (String × ℚ)
deriving DecidableEq, Repr

/-- strings.ToUpper restricted to the ASCII currency codes the program
uses. -/
def upperStr (s : String) : String := ⟨s.data.map Char.toUpper⟩

/-- strings.TrimSpace: drop leading and trailing whitespace. -/
def trimStr (s : String) : String :=
  ⟨((s.data.dropWhile Char.isWhitespace).reverse.dropWhile Char.isWhitespace).reverse⟩

/-- Go float64-to-int64 conversion `int64(q)`: truncation toward zero,
on the exact rational value. -/
def ratTrunc (q : ℚ) : ℤ := if 0 ≤ q then ⌊q⌋ else -⌊-q⌋

/-- Bank.ConvertAmount (bank_ext.go): uppercase both currencies, return
the amount unchanged when they coincide, otherwise convert minor units of
the source through the base currency into minor units of the target,
rounding via `int64(vTarget*100.0 + 0.5)` and replacing a non-positive
result by 1; unknown currencies fail. The rates table is passed in place
of the loadRates file read. -/
def ConvertAmount (r : Rates) (fromCur toCur : String) (amount : Int) : Res Int :=
  let fromCur := upperStr fromCur
  let toCur := upperStr toCur
  if fromCur = toCur then .ok amount
  else
    let vFrom : ℚ := (amount : ℚ) / 100
    match r.pairs.lookup fromCur, r.pairs.lookup toCur with
    | some fromRate, some toRate =>
      let vBase := vFrom / fromRate
      let vTarget := vBase * toRate
      let minor := ratTrunc (vTarget * 100 + 1 / 2)
      .ok (if minor ≤ 0 then 1 else minor)
    | _, _ => .err "неизвестная валюта"

/-- The specification's conversion formula, written from the spec's words
for comparison with `ConvertAmount`: round half-up of
`sourceAmountMajor / sourceRate * targetRate * 100`, floored at a minimum
of 1 minor unit. -/
def specConvert (fromRate toRate : ℚ) (amount : Int) : Int :=
  max 1 ⌊(amount : ℚ) / 100 / fromRate * toRate * 100 + 1 / 2⌋

/-- The transactions of the snapshot referencing the account as sender or
receiver, in map iteration order (the filter of ListTxByAccount). -/
def txFilter (s : Snapshot) (aid : Nat) : List Transaction :=
  (s.txs.map Prod.snd).filter (fun t => t.From == some aid || t.To == some aid)

/-- Modelled from the spec: bcrypt password hashing is an opaque external
capability ("hash"); the model keeps the password itself as the opaque
hash value, which no claim inspects. -/
def hashPassword (password : String) : String := password

/-- Bank.Register (bank_ext.go): trim the username, validate lengths,
reject an existing username, then allocate the next user id and create
the user. -/
def Register (s : Snapshot) (now : Nat) (username password : String) :
    Res BUser × Snapshot :=
  let username := trimStr username
  if username.length < 3 then (.err "слишком короткое имя пользователя", s)
  else if password.length < 4 then (.err "пароль слишком короткий", s)
  else
    resCase (getUserByUsername s username)
      (fun _ => (.err "пользователь уже существует", s))
      (fun _ =>
        let r := nextIDs s now
        let u : BUser := { id := r.1.1, username := username,
                           passHash := hashPassword password, createdAt := now,
                           role := .user, accounts := [] }
        stepCase (createUserStore r.2 now u)
          (fun s1 => (.ok u, s1))
          (fun e s1 => (.err e, s1)))

/-- Bank.CreateAccount (bank_ext.go): empty currency defaults to RUB;
allocate the next account id, create with zero balance. -/
def CreateAccount (s : Snapshot) (now : Nat) (owner : Nat) (currency : String) :
    Res Account × Snapshot :=
  let currency := if currency = "" then "RUB" else currency
  let r := nextIDs s now
  let a : Account := { id := r.1.2.1, owner := owner, currency := currency,
                       balance := 0, createdAt := now, closed := false }
  stepCase (createAccountStore r.2 now a)
    (fun s1 => (.ok a, s1))
    (fun e s1 => (.err e, s1))

/-- Bank.Deposit (bank_ext.go): positive amount, fetch the account, add
the amount, store it back, then allocate a tx id and append the deposit
transaction. The auto-backup file copy is I/O and has no ledger effect. -/
def Deposit (s : Snapshot) (now : Nat) (aid : Nat) (amount : Int) (note : String) :
    Res Transaction × Snapshot :=
  if amount ≤ 0 then (.err "сумма должна быть > 0", s)
  else
    resCase (getAccount s aid)
      (fun a =>
        let a2 := { a with balance := a.balance + amount }
        stepCase (updateAccountStore s now a2)
          (fun s1 =>
            let r := nextIDs s1 now
            let t : Transaction := { id := r.1.2.2, type := .deposit, From := none,
                                     To := some a2.id, amount := amount,
                                     currency := a2.currency, note := note,
                                     createdAt := now }
            stepCase (createTxStore r.2 now t)
              (fun s2 => (.ok t, s2))
              (fun e s2 => (.err e, s2)))
          (fun e s1 => (.err e, s1)))
      (fun e => (.err e, s))

/-- Bank.Withdraw (bank_ext.go): positive amount, fetch the account,
reject insufficient funds, subtract, store back, append the withdraw
transaction. -/
def Withdraw (s : Snapshot) (now : Nat) (aid : Nat) (amount : Int) (note : String) :
    Res Transaction × Snapshot :=
  if amount ≤ 0 then (.err "сумма должна быть > 0", s)
  else
    resCase (getAccount s aid)
      (fun a =>
        if a.balance < amount then (.err "недостаточно средств", s)
        else
          let a2 := { a with balance := a.balance - amount }
          stepCase (updateAccountStore s now a2)
            (fun s1 =>
              let r := nextIDs s1 now
              let t : Transaction := { id := r.1.2.2, type := .withdraw,
                                       From := some a2.id, To := none,
                                       amount := amount, currency := a2.currency,
                                       note := note, createdAt := now }
              stepCase (createTxStore r.2 now t)
                (fun s2 => (.ok t, s2))
                (fun e s2 => (.err e, s2)))
            (fun e s1 => (.err e, s1)))
      (fun e => (.err e, s))

/-- Tail of Bank.Transfer after the credited amount and note are known:
insufficient-funds check on the debited amount, then debit the sender
copy, credit the receiver copy, store both back in that order, and append
the transfer transaction recording the debited amount and the sender's
currency. -/
def transferFinish (s : Snapshot) (now : Nat) (fa ta : Account)
    (amount credit : Int) (note : String) : Res Transaction × Snapshot :=
  if fa.balance < amount then (.err "недостаточно средств", s)
  else
    let fa2 := { fa with balance := fa.balance - amount }
    let ta2 := { ta with balance := ta.balance + credit }
    stepCase (updateAccountStore s now fa2)
      (fun s1 =>
        stepCase (updateAccountStore s1 now ta2)
          (fun s2 =>
            let r := nextIDs s2 now
            let t : Transaction := { id := r.1.2.2, type := .transfer,
                                     From := some fa2.id, To := some ta2.id,
                                     amount := amount, currency := fa2.currency,
                                     note := note, createdAt := now }
            stepCase (createTxStore r.2 now t)
              (fun s3 => (.ok t, s3))
              (fun e s3 => (.err e, s3)))
          (fun e s2 => (.err e, s2)))
      (fun e s1 => (.err e, s1))

/-- Bank.Transfer (bank_ext.go): positive amount, fetch both account
copies, convert the credited amount when the currencies differ (appending
the FX marker to the note), then finish with debit/credit/record. -/
def Transfer (s : Snapshot) (now : Nat) (r : Rates) (fromA toA : Nat)
    (amount : Int) (note : String) : Res Transaction × Snapshot :=
  if amount ≤ 0 then (.err "сумма должна быть > 0", s)
  else
    resCase (getAccount s fromA)
      (fun fa =>
        resCase (getAccount s toA)
          (fun ta =>
            if fa.currency = ta.currency then
              transferFinish s now fa ta amount amount note
            else
              resCase (ConvertAmount r fa.currency ta.currency amount)
                (fun credit =>
                  transferFinish s now fa ta amount credit
                    (trimStr (note ++ " (FX " ++ fa.currency ++ "→" ++ ta.currency ++ ")")))
                (fun e => (.err e, s)))
          (fun e => (.err e, s)))
      (fun e => (.err e, s))

/-- Go int64 two's-complement wrap-around: reinterpret an unbounded
integer result modulo 2^64 into the interval from -2^63 to 2^63 - 1.
This is what `+=` and `-=` on the source's int64 balances actually
compute when the mathematical result leaves the int64 range. -/
def wrap64 (n : Int) : Int := (n + 2 ^ 63) % 2 ^ 64 - 2 ^ 63

/-- Bank.Withdraw with the int64 balance arithmetic modelled exactly:
identical to `Withdraw` except that the subtraction wraps as Go's int64
does. (The guard keeps the difference inside the range, so the wrap is
never observable here; the definition exists so that the overflow claim
is settled against true int64 semantics.) -/
def WithdrawW (s : Snapshot) (now : Nat) (aid : Nat) (amount : Int) (note : String) :
    Res Transaction × Snapshot :=
  if amount ≤ 0 then (.err "сумма должна быть > 0", s)
  else
    resCase (getAccount s aid)
      (fun a =>
        if a.balance < amount then (.err "недостаточно средств", s)
        else
          let a2 := { a with balance := wrap64 (a.balance - amount) }
          stepCase (updateAccountStore s now a2)
            (fun s1 =>
              let r := nextIDs s1 now
              let t : Transaction := { id := r.1.2.2, type := .withdraw,
                                       From := some a2.id, To := none,
                                       amount := amount, currency := a2.currency,
                                       note := note, createdAt := now }
              stepCase (createTxStore r.2 now t)
                (fun s2 => (.ok t, s2))
                (fun e s2 => (.err e, s2)))
            (fun e s1 => (.err e, s1)))
      (fun e => (.err e, s))

/-- Tail of Bank.Transfer with the int64 balance arithmetic modelled
exactly: identical to `transferFinish` except that the debit and the
credit wrap as Go's int64 does. The credit `ta.Balance += credit` has no
guard at all, so it can overflow. -/
def transferFinishW (s : Snapshot) (now : Nat) (fa ta : Account)
    (amount credit : Int) (note : String) : Res Transaction × Snapshot :=
  if fa.balance < amount then (.err "недостаточно средств", s)
  else
    let fa2 := { fa with balance := wrap64 (fa.balance - amount) }
    let ta2 := { ta with balance := wrap64 (ta.balance + credit) }
    stepCase (updateAccountStore s now fa2)
      (fun s1 =>
        stepCase (updateAccountStore s1 now ta2)
          (fun s2 =>
            let r := nextIDs s2 now
            let t : Transaction := { id := r.1.2.2, type := .transfer,
                                     From := some fa2.id, To := some ta2.id,
                                     amount := amount, currency := fa2.currency,
                                     note := note, createdAt := now }
            stepCase (createTxStore r.2 now t)
              (fun s3 => (.ok t, s3))
              (fun e s3 => (.err e, s3)))
          (fun e s2 => (.err e, s2)))
      (fun e s1 => (.err e, s1))

/-- Bank.Transfer with the int64 balance arithmetic modelled exactly:
identical to `Transfer` but finishing with `transferFinishW`. -/
def TransferW (s : Snapshot) (now : Nat) (r : Rates) (fromA toA : Nat)
    (amount : Int) (note : String) : Res Transaction × Snapshot :=
  if amount ≤ 0 then (.err "сумма должна быть > 0", s)
  else
    resCase (getAccount s fromA)
      (fun fa =>
        resCase (getAccount s toA)
          (fun ta =>
            if fa.currency = ta.currency then
              transferFinishW s now fa ta amount amount note
            else
              resCase (ConvertAmount r fa.currency ta.currency amount)
                (fun credit =>
                  transferFinishW s now fa ta amount credit
                    (trimStr (note ++ " (FX " ++ fa.currency ++ "→" ++ ta.currency ++ ")")))
                (fun e => (.err e, s)))
          (fun e => (.err e, s)))
      (fun e => (.err e, s))

/-- One inbound command against the ledger, with its call time (and, for
transfers, the rates file contents at that moment). -/
inductive Op where
  | register (now : Nat) (username password : String)
  | createAccount (now : Nat) (owner : Nat) (currency : String)
  | deposit (now : Nat) (aid : Nat) (amount : Int) (note : String)
  | withdraw (now : Nat) (aid : Nat) (amount : Int) (note : String)
  | transfer (now : Nat) (r : Rates) (fromA toA : Nat) (amount : Int) (note : String)

/-- State reached after one operation (results are reported to the caller;
the snapshot is what persists). -/
def execOp (s : Snapshot) : Op → Snapshot
  | .register now u p => (Register s now u p).2
  | .createAccount now o c => (CreateAccount s now o c).2
  | .deposit now aid a n => (Deposit s now aid a n).2
  | .withdraw now aid a n => (Withdraw s now aid a n).2
  | .transfer now r f t a n => (Transfer s now r f t a n).2

/-- Sequential execution of a command sequence. -/
def execOps (s : Snapshot) (ops : List Op) : Snapshot := ops.foldl execOp s

/-- Every stored balance is non-negative (the §3 invariant; every account
of this variant is a non-overdraft account). -/
def NonNegA (m : List (Nat × Account)) : Prop := ∀ p ∈ m, 0 ≤ p.2.balance

/-- Every stored balance of the snapshot is non-negative. -/
def NonNeg (s : Snapshot) : Prop := NonNegA s.accounts

/-- All keys of a map are at most `n`. -/
def KeysLe {α : Type} (m : List (Nat × α)) (n : Nat) : Prop := ∀ p ∈ m, p.1 ≤ n

/-- Keys in strictly increasing list order (list order is creation
order, so ids are strictly increasing in creation order). -/
def KeysOrdered {α : Type} (m : List (Nat × α)) : Prop :=
  (m.map Prod.fst).Pairwise (· < ·)

/-- Every stored transaction id is at most the NextTx counter. Holds in
every state reachable from `initSnapshot` and rules out the only
error-after-mutation path (a CreateTx id collision). -/
def TxBound (s : Snapshot) : Prop := KeysLe s.txs s.nextTx

/-- The id-counter invariant of reachable snapshots: each kind's keys are
bounded by its counter and listed in strictly increasing creation order. -/
def IdsInv (s : Snapshot) : Prop :=
  (KeysLe s.users s.nextUser ∧ KeysOrdered s.users) ∧
  (KeysLe s.accounts s.nextAcc ∧ KeysOrdered s.accounts) ∧
  (KeysLe s.txs s.nextTx ∧ KeysOrdered s.txs)

/-- Every stored account's `id` field agrees with its map key (true of
every account the service creates, since it stores accounts under their
own ids). -/
def KeysMatchA (s : Snapshot) : Prop := ∀ p ∈ s.accounts, p.2.id = p.1

/-- The combined well-formedness of reachable snapshots. -/
def StoreInv (s : Snapshot) : Prop := IdsInv s ∧ KeysMatchA s

end LedgerBot

namespace MinerBank

/-!
The miner-bot accrual engine, cmd/bank/main.go variant (single-file
Telegram Miner Simulator). Times are rational seconds; float64 balances
are embedded as ℚ. The catalog is an association list from GPU id to its
per-second rate.
-/

/-- miningWindow = 3 * time.Hour, in seconds. -/
def miningWindow : ℚ := 10800

/-- The accrual-relevant state of a cmd/bank/main.go User. -/
structure MUser where
  balance : ℚ
  inventory : List Nat
  lastAccrualAt : ℚ
  miningWindowEnd : ℚ
deriving DecidableEq, Repr

/-- totalRate: sum of the catalog rates of every owned GPU (ids missing
from the catalog contribute nothing). -/
def totalRate (catalog : List (Nat × ℚ)) (u : MUser) : ℚ :=
  u.inventory.foldl
    (fun r id => match catalog.lookup id with | some g => r + g | none => r) 0

/-- accrueOnInteraction (cmd/bank/main.go:707): accrue passive earnings
from LastAccrualAt up to min(now, MiningWindowEnd), then refresh the
window so it starts at now. -/
def accrueOnInteraction (catalog : List (Nat × ℚ)) (u : MUser) (now : ℚ) : MUser :=
  let accrualEnd := if now < u.miningWindowEnd then now else u.miningWindowEnd
  let u2 :=
    if u.lastAccrualAt < accrualEnd then
      { u with balance := u.balance + totalRate catalog u * (accrualEnd - u.lastAccrualAt) }
    else u
  { u2 with lastAccrualAt := now, miningWindowEnd := now + miningWindow }

end MinerBank

namespace GpuBot

/-!
The GPU-bot accrual engine, src/main.go variant. miningWindow is
10 * time.Minute; elapsed time is measured in minutes and the rates are
per ten minutes of elapsed time.
-/

/-- miningWindow = 10 * time.Minute, in seconds. -/
def miningWindow : ℚ := 600

/-- The accrual-relevant state of a src/main.go User. -/
structure GUser where
  balanceBTC : ℚ
  balanceUSD : ℚ
  inventory : List Nat
  businesses : List Nat
  lastAccrualAt : ℚ
  miningWindowEnd : ℚ
deriving DecidableEq, Repr

/-- totalMiningRate: sum of gpuByID rates over the inventory. -/
def totalMiningRate (gpuRates : List (Nat × ℚ)) (u : GUser) : ℚ :=
  u.inventory.foldl
    (fun r id => match gpuRates.lookup id with | some g => r + g | none => r) 0

/-- totalBusinessIncome: sum of bizByID incomes over the businesses. -/
def totalBusinessIncome (bizRates : List (Nat × ℚ)) (u : GUser) : ℚ :=
  u.businesses.foldl
    (fun r id => match bizRates.lookup id with | some g => r + g | none => r) 0

/-- accrueEarnings (src/main.go:188): only when now is strictly before
MiningWindowEnd, credit mining and business income for the minutes
elapsed since LastAccrualAt (rate per 10 minutes); otherwise credit
nothing at all. Then unconditionally reset LastAccrualAt and the window. -/
def accrueEarnings (gpuRates bizRates : List (Nat × ℚ)) (u : GUser) (now : ℚ) : GUser :=
  let u2 :=
    if now < u.miningWindowEnd then
      let minutes := (now - u.lastAccrualAt) / 60
      let u3 := { u with balanceBTC := u.balanceBTC + totalMiningRate gpuRates u * (minutes / 10) }
      { u3 with balanceBTC := u3.balanceBTC + totalBusinessIncome bizRates u3 * (minutes / 10) }
    else u
  { u2 with lastAccrualAt := now, miningWindowEnd := now + miningWindow }

end GpuBot

namespace LedgerBot

/-! Association-list lemmas. -/

theorem alookup_mem {α : Type} {m : List (Nat × α)} {k : Nat} {v : α}
    (h : alookup m k = some v) : (k, v) ∈ m := by
  induction m with
  | nil => simp [alookup] at h
  | cons p rest ih =>
    obtain ⟨k2, w⟩ := p
    by_cases hk : k2 = k
    · subst hk
      simp [alookup] at h
      subst h
      exact List.mem_cons_self _ _
    · simp only [alookup, if_neg hk] at h
      exact List.mem_cons_of_mem _ (ih h)

theorem alookup_eq_none_of_lt {α : Type} {m : List (Nat × α)} {n k : Nat}
    (hb : KeysLe m n) (hk : n < k) : alookup m k = none := by
  induction m with
  | nil => rfl
  | cons p rest ih =>
    have h1 : p.1 ≤ n := hb p (List.mem_cons_self _ _)
    have : p.1 ≠ k := by omega
    simpa [alookup, this] using ih (fun q hq => hb q (List.mem_cons_of_mem _ hq))

theorem alookup_ainsert_ne {α : Type} {m : List (Nat × α)} {k k2 : Nat} {v : α}
    (h : k ≠ k2) : alookup (ainsert m k v) k2 = alookup m k2 := by
  induction m with
  | nil => simp [ainsert, alookup, h]
  | cons p rest ih =>
    by_cases hk : p.1 = k2
    · simp [ainsert, alookup, hk]
    · simpa [ainsert, alookup, hk] using ih

theorem mem_ainsert {α : Type} {m : List (Nat × α)} {k : Nat} {v : α} {p : Nat × α} :
    p ∈ ainsert m k v ↔ p ∈ m ∨ p = (k, v) := by
  simp [ainsert]

theorem aupdate_cons {α : Type} (p : Nat × α) (rest : List (Nat × α)) (k : Nat) (v : α) :
    aupdate (p :: rest) k v = (if p.1 = k then (k, v) else p) :: aupdate rest k v := rfl

theorem aupdate_keys {α : Type} (m : List (Nat × α)) (k : Nat) (v : α) :
    (aupdate m k v).map Prod.fst = m.map Prod.fst := by
  induction m with
  | nil => rfl
  | cons p rest ih =>
    rw [aupdate_cons, List.map_cons, List.map_cons, ih]
    by_cases hk : p.1 = k
    · rw [if_pos hk, hk]
    · rw [if_neg hk]

theorem mem_aupdate {α : Type} {m : List (Nat × α)} {k : Nat} {v : α} {p : Nat × α}
    (h : p ∈ aupdate m k v) : p = (k, v) ∨ p ∈ m := by
  simp only [aupdate, List.mem_map] at h
  obtain ⟨q, hq, he⟩ := h
  by_cases hk : q.1 = k
  · rw [if_pos hk] at he
    exact Or.inl he.symm
  · rw [if_neg hk] at he
    exact Or.inr (he ▸ hq)

theorem alookup_aupdate_self {α : Type} {m : List (Nat × α)} {k : Nat} {v w : α}
    (h : alookup m k = some w) : alookup (aupdate m k v) k = some v := by
  induction m with
  | nil => simp [alookup] at h
  | cons p rest ih =>
    obtain ⟨k2, w2⟩ := p
    rw [aupdate_cons]
    by_cases hk : k2 = k
    · rw [if_pos hk]
      simp [alookup]
    · rw [if_neg hk]
      rw [show alookup ((k2, w2) :: rest) k = if k2 = k then some w2 else alookup rest k from rfl,
        if_neg hk] at h
      rw [show alookup ((k2, w2) :: aupdate rest k v) k
          = if k2 = k then some w2 else alookup (aupdate rest k v) k from rfl, if_neg hk]
      exact ih h

theorem alookup_aupdate_ne {α : Type} {m : List (Nat × α)} {k k2 : Nat} {v : α}
    (h : k ≠ k2) : alookup (aupdate m k v) k2 = alookup m k2 := by
  induction m with
  | nil => rfl
  | cons p rest ih =>
    obtain ⟨k3, w⟩ := p
    rw [aupdate_cons]
    by_cases hk : k3 = k
    · rw [if_pos hk]
      rw [show alookup ((k, v) :: aupdate rest k v) k2
          = if k = k2 then some v else alookup (aupdate rest k v) k2 from rfl, if_neg h]
      rw [show alookup ((k3, w) :: rest) k2 = if k3 = k2 then some w else alookup rest k2 from rfl,
        if_neg (by omega : k3 ≠ k2)]
      exact ih
    · rw [if_neg hk]
      rw [show alookup ((k3, w) :: aupdate rest k v) k2
          = if k3 = k2 then some w else alookup (aupdate rest k v) k2 from rfl]
      rw [show alookup ((k3, w) :: rest) k2 = if k3 = k2 then some w else alookup rest k2 from rfl]
      by_cases hk2 : k3 = k2
      · rw [if_pos hk2, if_pos hk2]
      · rw [if_neg hk2, if_neg hk2]
        exact ih

end LedgerBot

namespace LedgerBot

/-! Combinator equations and store-operation characterizations. -/

theorem resCase_ok {α β : Type} (v : α) (onOk : α → β) (onErr : String → β) :
    resCase (.ok v) onOk onErr = onOk v := rfl

theorem resCase_err {α β : Type} (e : String) (onOk : α → β) (onErr : String → β) :
    resCase (.err e) onOk onErr = onErr e := rfl

theorem stepCase_ok {σ β : Type} (s1 : σ) (onOk : σ → β) (onErr : String → σ → β) :
    stepCase (.ok (), s1) onOk onErr = onOk s1 := rfl

theorem stepCase_err {σ β : Type} (e : String) (s1 : σ) (onOk : σ → β)
    (onErr : String → σ → β) : stepCase (.err e, s1) onOk onErr = onErr e s1 := rfl

theorem updateAccountStore_some {s : Snapshot} {now : Nat} {a : Account} {b : Account}
    (h : alookup s.accounts a.id = some b) :
    updateAccountStore s now a
      = (.ok (), { s with accounts := aupdate s.accounts a.id a, updatedAt := now }) := by
  unfold updateAccountStore
  rw [h]

theorem updateAccountStore_none {s : Snapshot} {now : Nat} {a : Account}
    (h : alookup s.accounts a.id = none) :
    updateAccountStore s now a = (.err "not found", s) := by
  unfold updateAccountStore
  rw [h]

theorem createTxStore_fresh {s : Snapshot} {now : Nat} {t : Transaction}
    (h : alookup s.txs t.id = none) :
    createTxStore s now t
      = (.ok (), { s with txs := ainsert s.txs t.id t, updatedAt := now }) := by
  unfold createTxStore
  rw [h]

theorem createTxStore_dup {s : Snapshot} {now : Nat} {t : Transaction} {w : Transaction}
    (h : alookup s.txs t.id = some w) :
    createTxStore s now t = (.err "tx exists", s) := by
  unfold createTxStore
  rw [h]

theorem getAccount_some {s : Snapshot} {aid : Nat} {a : Account}
    (h : alookup s.accounts aid = some a) : getAccount s aid = .ok a := by
  unfold getAccount
  rw [h]

theorem getAccount_none {s : Snapshot} {aid : Nat}
    (h : alookup s.accounts aid = none) : getAccount s aid = .err "not found" := by
  unfold getAccount
  rw [h]

/-! Deposit characterizations (bank_ext.go:91). -/

theorem Deposit_nonpos {s : Snapshot} {now aid : Nat} {amount : Int} {note : String}
    (h : amount ≤ 0) : Deposit s now aid amount note = (.err "сумма должна быть > 0", s) := by
  unfold Deposit
  rw [if_pos h]

theorem Deposit_noacct {s : Snapshot} {now aid : Nat} {amount : Int} {note : String}
    (h : ¬amount ≤ 0) (h2 : alookup s.accounts aid = none) :
    Deposit s now aid amount note = (.err "not found", s) := by
  unfold Deposit
  rw [if_neg h, getAccount_none h2]
  rw [resCase_err]

theorem Deposit_ok {s : Snapshot} {now aid : Nat} {amount : Int} {note : String}
    {a w : Account}
    (h : ¬amount ≤ 0) (h2 : alookup s.accounts aid = some a)
    (hup : alookup s.accounts a.id = some w)
    (h3 : alookup s.txs (s.nextTx + 1) = none) :
    Deposit s now aid amount note
      = (.ok { id := s.nextTx + 1, type := .deposit, From := none, To := some a.id,
               amount := amount, currency := a.currency, note := note, createdAt := now },
         { s with
             accounts := aupdate s.accounts a.id { a with balance := a.balance + amount },
             txs := ainsert s.txs (s.nextTx + 1)
               { id := s.nextTx + 1, type := .deposit, From := none, To := some a.id,
                 amount := amount, currency := a.currency, note := note, createdAt := now },
             nextUser := s.nextUser + 1, nextAcc := s.nextAcc + 1, nextTx := s.nextTx + 1,
             updatedAt := now }) := by
  unfold Deposit
  rw [if_neg h, getAccount_some h2]
  simp only [resCase_ok]
  rw [updateAccountStore_some (show alookup s.accounts
    ({ a with balance := a.balance + amount } : Account).id = some w from hup)]
  simp only [stepCase_ok, nextIDs]
  rw [createTxStore_fresh (by simpa using h3)]
  simp only [stepCase_ok]

theorem Deposit_txdup {s : Snapshot} {now aid : Nat} {amount : Int} {note : String}
    {a w : Account} {t0 : Transaction}
    (h : ¬amount ≤ 0) (h2 : alookup s.accounts aid = some a)
    (hup : alookup s.accounts ({ a with balance := a.balance + amount } : Account).id = some w)
    (h3 : alookup s.txs (s.nextTx + 1) = some t0) :
    Deposit s now aid amount note
      = (.err "tx exists",
         { s with
             accounts := aupdate s.accounts a.id { a with balance := a.balance + amount },
             nextUser := s.nextUser + 1, nextAcc := s.nextAcc + 1, nextTx := s.nextTx + 1,
             updatedAt := now }) := by
  unfold Deposit
  rw [if_neg h, getAccount_some h2]
  simp only [resCase_ok]
  rw [updateAccountStore_some hup]
  simp only [stepCase_ok, nextIDs]
  rw [createTxStore_dup (by simpa using h3)]
  simp only [stepCase_err]

theorem Deposit_upd_none {s : Snapshot} {now aid : Nat} {amount : Int} {note : String}
    {a : Account}
    (h : ¬amount ≤ 0) (h2 : alookup s.accounts aid = some a)
    (hup : alookup s.accounts ({ a with balance := a.balance + amount } : Account).id = none) :
    Deposit s now aid amount note = (.err "not found", s) := by
  unfold Deposit
  rw [if_neg h, getAccount_some h2]
  simp only [resCase_ok]
  rw [updateAccountStore_none hup]
  simp only [stepCase_err]

end LedgerBot

namespace LedgerBot

/-! Withdraw characterizations (bank_ext.go:113). -/

theorem Withdraw_nonpos {s : Snapshot} {now aid : Nat} {amount : Int} {note : String}
    (h : amount ≤ 0) : Withdraw s now aid amount note = (.err "сумма должна быть > 0", s) := by
  unfold Withdraw
  rw [if_pos h]

theorem Withdraw_noacct {s : Snapshot} {now aid : Nat} {amount : Int} {note : String}
    (h : ¬amount ≤ 0) (h2 : alookup s.accounts aid = none) :
    Withdraw s now aid amount note = (.err "not found", s) := by
  unfold Withdraw
  rw [if_neg h, getAccount_none h2, resCase_err]

theorem Withdraw_insufficient {s : Snapshot} {now aid : Nat} {amount : Int} {note : String}
    {a : Account}
    (h : ¬amount ≤ 0) (h2 : alookup s.accounts aid = some a) (h3 : a.balance < amount) :
    Withdraw s now aid amount note = (.err "недостаточно средств", s) := by
  unfold Withdraw
  rw [if_neg h, getAccount_some h2]
  simp only [resCase_ok]
  rw [if_pos h3]

theorem Withdraw_ok {s : Snapshot} {now aid : Nat} {amount : Int} {note : String}
    {a w : Account}
    (h : ¬amount ≤ 0) (h2 : alookup s.accounts aid = some a)
    (hb : ¬a.balance < amount)
    (hup : alookup s.accounts a.id = some w)
    (h3 : alookup s.txs (s.nextTx + 1) = none) :
    Withdraw s now aid amount note
      = (.ok { id := s.nextTx + 1, type := .withdraw, From := some a.id, To := none,
               amount := amount, currency := a.currency, note := note, createdAt := now },
         { s with
             accounts := aupdate s.accounts a.id { a with balance := a.balance - amount },
             txs := ainsert s.txs (s.nextTx + 1)
               { id := s.nextTx + 1, type := .withdraw, From := some a.id, To := none,
                 amount := amount, currency := a.currency, note := note, createdAt := now },
             nextUser := s.nextUser + 1, nextAcc := s.nextAcc + 1, nextTx := s.nextTx + 1,
             updatedAt := now }) := by
  unfold Withdraw
  rw [if_neg h, getAccount_some h2]
  simp only [resCase_ok]
  rw [if_neg hb]
  rw [updateAccountStore_some (show alookup s.accounts
    ({ a with balance := a.balance - amount } : Account).id = some w from hup)]
  simp only [stepCase_ok, nextIDs]
  rw [createTxStore_fresh (by simpa using h3)]
  simp only [stepCase_ok]

/-! transferFinish and Transfer characterizations (bank_ext.go:138). -/

theorem transferFinish_insufficient {s : Snapshot} {now : Nat} {fa ta : Account}
    {amount credit : Int} {note : String}
    (h : fa.balance < amount) :
    transferFinish s now fa ta amount credit note = (.err "недостаточно средств", s) := by
  unfold transferFinish
  rw [if_pos h]

theorem transferFinish_ok {s : Snapshot} {now : Nat} {fa ta : Account}
    {amount credit : Int} {note : String} {w1 w2 : Account}
    (h : ¬fa.balance < amount)
    (h1 : alookup s.accounts fa.id = some w1)
    (h2 : alookup (aupdate s.accounts fa.id { fa with balance := fa.balance - amount }) ta.id
        = some w2)
    (h3 : alookup s.txs (s.nextTx + 1) = none) :
    transferFinish s now fa ta amount credit note
      = (.ok { id := s.nextTx + 1, type := .transfer, From := some fa.id, To := some ta.id,
               amount := amount, currency := fa.currency, note := note, createdAt := now },
         { s with
             accounts := aupdate (aupdate s.accounts fa.id
                 { fa with balance := fa.balance - amount }) ta.id
               { ta with balance := ta.balance + credit },
             txs := ainsert s.txs (s.nextTx + 1)
               { id := s.nextTx + 1, type := .transfer, From := some fa.id, To := some ta.id,
                 amount := amount, currency := fa.currency, note := note, createdAt := now },
             nextUser := s.nextUser + 1, nextAcc := s.nextAcc + 1, nextTx := s.nextTx + 1,
             updatedAt := now }) := by
  unfold transferFinish
  rw [if_neg h]
  simp only []
  rw [updateAccountStore_some (show alookup s.accounts
    ({ fa with balance := fa.balance - amount } : Account).id = some w1 from h1)]
  simp only [stepCase_ok]
  rw [updateAccountStore_some (show alookup _
    ({ ta with balance := ta.balance + credit } : Account).id = some w2 from h2)]
  simp only [stepCase_ok, nextIDs]
  rw [createTxStore_fresh (by simpa using h3)]
  simp only [stepCase_ok]

theorem Transfer_nonpos {s : Snapshot} {now : Nat} {r : Rates} {fromA toA : Nat}
    {amount : Int} {note : String}
    (h : amount ≤ 0) :
    Transfer s now r fromA toA amount note = (.err "сумма должна быть > 0", s) := by
  unfold Transfer
  rw [if_pos h]

theorem Transfer_nofrom {s : Snapshot} {now : Nat} {r : Rates} {fromA toA : Nat}
    {amount : Int} {note : String}
    (h : ¬amount ≤ 0) (h2 : alookup s.accounts fromA = none) :
    Transfer s now r fromA toA amount note = (.err "not found", s) := by
  unfold Transfer
  rw [if_neg h, getAccount_none h2, resCase_err]

theorem Transfer_noto {s : Snapshot} {now : Nat} {r : Rates} {fromA toA : Nat}
    {amount : Int} {note : String} {fa : Account}
    (h : ¬amount ≤ 0) (h2 : alookup s.accounts fromA = some fa)
    (h3 : alookup s.accounts toA = none) :
    Transfer s now r fromA toA amount note = (.err "not found", s) := by
  unfold Transfer
  rw [if_neg h, getAccount_some h2]
  simp only [resCase_ok]
  rw [getAccount_none h3, resCase_err]

theorem Transfer_same {s : Snapshot} {now : Nat} {r : Rates} {fromA toA : Nat}
    {amount : Int} {note : String} {fa ta : Account}
    (h : ¬amount ≤ 0) (h2 : alookup s.accounts fromA = some fa)
    (h3 : alookup s.accounts toA = some ta) (hc : fa.currency = ta.currency) :
    Transfer s now r fromA toA amount note = transferFinish s now fa ta amount amount note := by
  unfold Transfer
  rw [if_neg h, getAccount_some h2]
  simp only [resCase_ok]
  rw [getAccount_some h3]
  simp only [resCase_ok]
  rw [if_pos hc]

theorem Transfer_fx {s : Snapshot} {now : Nat} {r : Rates} {fromA toA : Nat}
    {amount credit : Int} {note : String} {fa ta : Account}
    (h : ¬amount ≤ 0) (h2 : alookup s.accounts fromA = some fa)
    (h3 : alookup s.accounts toA = some ta) (hc : ¬fa.currency = ta.currency)
    (hcv : ConvertAmount r fa.currency ta.currency amount = .ok credit) :
    Transfer s now r fromA toA amount note
      = transferFinish s now fa ta amount credit
          (trimStr (note ++ " (FX " ++ fa.currency ++ "→" ++ ta.currency ++ ")")) := by
  unfold Transfer
  rw [if_neg h, getAccount_some h2]
  simp only [resCase_ok]
  rw [getAccount_some h3]
  simp only [resCase_ok]
  rw [if_neg hc, hcv]
  simp only [resCase_ok]

theorem Transfer_fxerr {s : Snapshot} {now : Nat} {r : Rates} {fromA toA : Nat}
    {amount : Int} {note e : String} {fa ta : Account}
    (h : ¬amount ≤ 0) (h2 : alookup s.accounts fromA = some fa)
    (h3 : alookup s.accounts toA = some ta) (hc : ¬fa.currency = ta.currency)
    (hcv : ConvertAmount r fa.currency ta.currency amount = .err e) :
    Transfer s now r fromA toA amount note = (.err e, s) := by
  unfold Transfer
  rw [if_neg h, getAccount_some h2]
  simp only [resCase_ok]
  rw [getAccount_some h3]
  simp only [resCase_ok]
  rw [if_neg hc, hcv]
  simp only [resCase_err]

end LedgerBot

namespace LedgerBot

/-! Register and CreateAccount characterizations (bank_ext.go:48,79). -/

theorem Register_shortname {s : Snapshot} {now : Nat} {username password : String}
    (h : (trimStr username).length < 3) :
    Register s now username password = (.err "слишком короткое имя пользователя", s) := by
  unfold Register
  rw [if_pos h]

theorem Register_shortpass {s : Snapshot} {now : Nat} {username password : String}
    (h : ¬(trimStr username).length < 3) (h2 : password.length < 4) :
    Register s now username password = (.err "пароль слишком короткий", s) := by
  unfold Register
  rw [if_neg h, if_pos h2]

theorem Register_exists {s : Snapshot} {now : Nat} {username password : String} {u : BUser}
    (h : ¬(trimStr username).length < 3) (h2 : ¬password.length < 4)
    (h3 : getUserByUsername s (trimStr username) = .ok u) :
    Register s now username password = (.err "пользователь уже существует", s) := by
  unfold Register
  rw [if_neg h, if_neg h2, h3, resCase_ok]

theorem Register_ok {s : Snapshot} {now : Nat} {username password : String} {e : String}
    (h : ¬(trimStr username).length < 3) (h2 : ¬password.length < 4)
    (h3 : getUserByUsername s (trimStr username) = .err e)
    (h4 : alookup s.users (s.nextUser + 1) = none) :
    Register s now username password
      = (.ok { id := s.nextUser + 1, username := trimStr username,
               passHash := hashPassword password, createdAt := now,
               role := .user, accounts := [] },
         { s with
             users := ainsert s.users (s.nextUser + 1)
               { id := s.nextUser + 1, username := trimStr username,
                 passHash := hashPassword password, createdAt := now,
                 role := .user, accounts := [] },
             nextUser := s.nextUser + 1, nextAcc := s.nextAcc + 1, nextTx := s.nextTx + 1,
             updatedAt := now }) := by
  unfold Register
  rw [if_neg h, if_neg h2, h3, resCase_err]
  simp only [nextIDs]
  unfold createUserStore
  simp only []
  rw [h4]
  rfl

theorem Register_dup {s : Snapshot} {now : Nat} {username password : String}
    {e : String} {u0 : BUser}
    (h : ¬(trimStr username).length < 3) (h2 : ¬password.length < 4)
    (h3 : getUserByUsername s (trimStr username) = .err e)
    (h4 : alookup s.users (s.nextUser + 1) = some u0) :
    Register s now username password
      = (.err "user exists",
         { s with nextUser := s.nextUser + 1, nextAcc := s.nextAcc + 1,
                  nextTx := s.nextTx + 1, updatedAt := now }) := by
  unfold Register
  rw [if_neg h, if_neg h2, h3, resCase_err]
  simp only [nextIDs]
  unfold createUserStore
  simp only []
  rw [h4]
  rfl

theorem CreateAccount_dup {s : Snapshot} {now owner : Nat} {currency : String} {w : Account}
    (h : alookup s.accounts (s.nextAcc + 1) = some w) :
    CreateAccount s now owner currency
      = (.err "account exists",
         { s with nextUser := s.nextUser + 1, nextAcc := s.nextAcc + 1,
                  nextTx := s.nextTx + 1, updatedAt := now }) := by
  unfold CreateAccount
  simp only [nextIDs]
  unfold createAccountStore
  simp only []
  rw [h]
  rfl

theorem CreateAccount_ok {s : Snapshot} {now owner : Nat} {currency : String}
    (h : alookup s.accounts (s.nextAcc + 1) = none) :
    CreateAccount s now owner currency
      = (.ok { id := s.nextAcc + 1, owner := owner,
               currency := if currency = "" then "RUB" else currency,
               balance := 0, createdAt := now, closed := false },
         { s with
             accounts := ainsert s.accounts (s.nextAcc + 1)
               { id := s.nextAcc + 1, owner := owner,
                 currency := if currency = "" then "RUB" else currency,
                 balance := 0, createdAt := now, closed := false },
             users :=
               match alookup s.users owner with
               | some u => aupdate s.users owner
                   { u with accounts := u.accounts ++ [s.nextAcc + 1] }
               | none => s.users,
             nextUser := s.nextUser + 1, nextAcc := s.nextAcc + 1, nextTx := s.nextTx + 1,
             updatedAt := now }) := by
  unfold CreateAccount
  simp only [nextIDs]
  unfold createAccountStore
  simp only []
  rw [h]
  rfl

end LedgerBot

namespace LedgerBot

/-! Key-set lemmas for the invariants. -/

theorem KeysLe.mono {α : Type} {m : List (Nat × α)} {n n2 : Nat}
    (h : KeysLe m n) (h2 : n ≤ n2) : KeysLe m n2 :=
  fun p hp => le_trans (h p hp) h2

theorem KeysLe_ainsert {α : Type} {m : List (Nat × α)} {n : Nat} {k : Nat} {v : α}
    (h : KeysLe m n) (hk : k ≤ n) : KeysLe (ainsert m k v) n := by
  intro p hp
  rcases mem_ainsert.mp hp with hm | he
  · exact h p hm
  · rw [he]
    exact hk

theorem KeysLe_aupdate {α : Type} {m : List (Nat × α)} {n : Nat} {k : Nat} {v : α}
    (h : KeysLe m n) : KeysLe (aupdate m k v) n := by
  intro p hp
  have hmem : p.1 ∈ (aupdate m k v).map Prod.fst := List.mem_map_of_mem _ hp
  rw [aupdate_keys] at hmem
  obtain ⟨q, hq, he⟩ := List.mem_map.mp hmem
  exact he ▸ h q hq

theorem KeysOrdered_aupdate {α : Type} {m : List (Nat × α)} {k : Nat} {v : α}
    (h : KeysOrdered m) : KeysOrdered (aupdate m k v) := by
  unfold KeysOrdered at h ⊢
  rwa [aupdate_keys]

theorem KeysOrdered_ainsert {α : Type} {m : List (Nat × α)} {k : Nat} {v : α}
    (h : KeysOrdered m) (hlt : ∀ p ∈ m, p.1 < k) : KeysOrdered (ainsert m k v) := by
  unfold KeysOrdered at h ⊢
  unfold ainsert
  rw [List.map_append]
  refine List.pairwise_append.mpr ⟨h, List.pairwise_singleton _ _, ?_⟩
  intro x hx y hy
  obtain ⟨q, hq, he⟩ := List.mem_map.mp hx
  simp only [List.map_cons, List.map_nil, List.mem_singleton] at hy
  rw [hy, ← he]
  exact hlt q hq

theorem NonNegA_aupdate {m : List (Nat × Account)} {k : Nat} {v : Account}
    (h : NonNegA m) (hv : 0 ≤ v.balance) : NonNegA (aupdate m k v) := by
  intro p hp
  rcases mem_aupdate hp with he | hm
  · rw [he]
    exact hv
  · exact h p hm

theorem NonNegA_ainsert {m : List (Nat × Account)} {k : Nat} {v : Account}
    (h : NonNegA m) (hv : 0 ≤ v.balance) : NonNegA (ainsert m k v) := by
  intro p hp
  rcases mem_ainsert.mp hp with hm | he
  · exact h p hm
  · rw [he]
    exact hv

theorem NonNegA_lookup {s : Snapshot} {aid : Nat} {a : Account}
    (hs : NonNeg s) (h : alookup s.accounts aid = some a) : 0 ≤ a.balance :=
  hs (aid, a) (alookup_mem h)

/-! ConvertAmount credits are always positive. -/

theorem ConvertAmount_pos {r : Rates} {c1 c2 : String} {amount credit : Int}
    (h : 0 < amount) (hc : ConvertAmount r c1 c2 amount = .ok credit) : 0 < credit := by
  unfold ConvertAmount at hc
  by_cases he : upperStr c1 = upperStr c2
  · rw [if_pos he] at hc
    cases hc
    exact h
  · rw [if_neg he] at hc
    cases hf : (r.pairs.lookup (upperStr c1)) with
    | none =>
      rw [hf] at hc
      cases ht : (r.pairs.lookup (upperStr c2)) with
      | none => rw [ht] at hc; cases hc
      | some tr => rw [ht] at hc; cases hc
    | some fr =>
      rw [hf] at hc
      cases ht : (r.pairs.lookup (upperStr c2)) with
      | none => rw [ht] at hc; cases hc
      | some tr =>
        rw [ht] at hc
        simp only [] at hc
        by_cases hm : ratTrunc ((amount : ℚ) / 100 / fr * tr * 100 + 1 / 2) ≤ 0
        · rw [if_pos hm] at hc
          cases hc
          norm_num
        · rw [if_neg hm] at hc
          cases hc
          omega

end LedgerBot

namespace LedgerBot

/-! Remaining transferFinish branches. -/

theorem transferFinish_nofa {s : Snapshot} {now : Nat} {fa ta : Account}
    {amount credit : Int} {note : String}
    (h : ¬fa.balance < amount) (h1 : alookup s.accounts fa.id = none) :
    transferFinish s now fa ta amount credit note = (.err "not found", s) := by
  unfold transferFinish
  rw [if_neg h]
  simp only []
  rw [updateAccountStore_none (show alookup s.accounts
    ({ fa with balance := fa.balance - amount } : Account).id = none from h1)]
  simp only [stepCase_err]

theorem transferFinish_nota {s : Snapshot} {now : Nat} {fa ta : Account}
    {amount credit : Int} {note : String} {w1 : Account}
    (h : ¬fa.balance < amount) (h1 : alookup s.accounts fa.id = some w1)
    (h2 : alookup (aupdate s.accounts fa.id { fa with balance := fa.balance - amount }) ta.id
        = none) :
    transferFinish s now fa ta amount credit note
      = (.err "not found",
         { s with
             accounts := aupdate s.accounts fa.id { fa with balance := fa.balance - amount },
             updatedAt := now }) := by
  unfold transferFinish
  rw [if_neg h]
  simp only []
  rw [updateAccountStore_some (show alookup s.accounts
    ({ fa with balance := fa.balance - amount } : Account).id = some w1 from h1)]
  simp only [stepCase_ok]
  rw [updateAccountStore_none (show alookup _
    ({ ta with balance := ta.balance + credit } : Account).id = none from h2)]
  simp only [stepCase_err]

theorem transferFinish_txdup {s : Snapshot} {now : Nat} {fa ta : Account}
    {amount credit : Int} {note : String} {w1 w2 : Account} {t0 : Transaction}
    (h : ¬fa.balance < amount) (h1 : alookup s.accounts fa.id = some w1)
    (h2 : alookup (aupdate s.accounts fa.id { fa with balance := fa.balance - amount }) ta.id
        = some w2)
    (h3 : alookup s.txs (s.nextTx + 1) = some t0) :
    transferFinish s now fa ta amount credit note
      = (.err "tx exists",
         { s with
             accounts := aupdate (aupdate s.accounts fa.id
                 { fa with balance := fa.balance - amount }) ta.id
               { ta with balance := ta.balance + credit },
             nextUser := s.nextUser + 1, nextAcc := s.nextAcc + 1, nextTx := s.nextTx + 1,
             updatedAt := now }) := by
  unfold transferFinish
  rw [if_neg h]
  simp only []
  rw [updateAccountStore_some (show alookup s.accounts
    ({ fa with balance := fa.balance - amount } : Account).id = some w1 from h1)]
  simp only [stepCase_ok]
  rw [updateAccountStore_some (show alookup _
    ({ ta with balance := ta.balance + credit } : Account).id = some w2 from h2)]
  simp only [stepCase_ok, nextIDs]
  rw [createTxStore_dup (by simpa using h3)]
  simp only [stepCase_err]

/-! NonNeg is preserved by every operation. -/

theorem NonNeg_Deposit {s : Snapshot} (now aid : Nat) (amount : Int) (note : String)
    (hs : NonNeg s) : NonNeg (Deposit s now aid amount note).2 := by
  by_cases hA : amount ≤ 0
  · rw [Deposit_nonpos hA]
    exact hs
  · cases h2 : alookup s.accounts aid with
    | none =>
      rw [Deposit_noacct hA h2]
      exact hs
    | some a =>
      have ha : 0 ≤ a.balance := NonNegA_lookup hs h2
      have hbal : 0 ≤ ({ a with balance := a.balance + amount } : Account).balance := by
        simp only []
        omega
      cases hup : alookup s.accounts a.id with
      | none =>
        rw [Deposit_upd_none hA h2 hup]
        exact hs
      | some w =>
        cases htx : alookup s.txs (s.nextTx + 1) with
        | none =>
          rw [Deposit_ok hA h2 hup htx]
          exact NonNegA_aupdate hs hbal
        | some t0 =>
          rw [Deposit_txdup hA h2 hup htx]
          exact NonNegA_aupdate hs hbal

theorem NonNeg_Withdraw {s : Snapshot} (now aid : Nat) (amount : Int) (note : String)
    (hs : NonNeg s) : NonNeg (Withdraw s now aid amount note).2 := by
  by_cases hA : amount ≤ 0
  · rw [Withdraw_nonpos hA]
    exact hs
  · cases h2 : alookup s.accounts aid with
    | none =>
      rw [Withdraw_noacct hA h2]
      exact hs
    | some a =>
      by_cases hb : a.balance < amount
      · rw [Withdraw_insufficient hA h2 hb]
        exact hs
      · have hbal : 0 ≤ ({ a with balance := a.balance - amount } : Account).balance := by
          simp only []
          omega
        cases hup : alookup s.accounts a.id with
        | none =>
          unfold Withdraw
          rw [if_neg hA, getAccount_some h2]
          simp only [resCase_ok]
          rw [if_neg hb]
          rw [updateAccountStore_none (show alookup s.accounts
            ({ a with balance := a.balance - amount } : Account).id = none from hup)]
          simp only [stepCase_err]
          exact hs
        | some w =>
          cases htx : alookup s.txs (s.nextTx + 1) with
          | none =>
            rw [Withdraw_ok hA h2 hb hup htx]
            exact NonNegA_aupdate hs hbal
          | some t0 =>
            unfold Withdraw
            rw [if_neg hA, getAccount_some h2]
            simp only [resCase_ok]
            rw [if_neg hb]
            rw [updateAccountStore_some (show alookup s.accounts
              ({ a with balance := a.balance - amount } : Account).id = some w from hup)]
            simp only [stepCase_ok, nextIDs]
            rw [createTxStore_dup (by simpa using htx)]
            simp only [stepCase_err]
            exact NonNegA_aupdate hs hbal

theorem NonNeg_transferFinish {s : Snapshot} (now : Nat) {fa ta : Account}
    {amount credit : Int} (note : String)
    (hs : NonNeg s) (hta : 0 ≤ ta.balance) (hcr : 0 < credit) :
    NonNeg (transferFinish s now fa ta amount credit note).2 := by
  by_cases hb : fa.balance < amount
  · rw [transferFinish_insufficient hb]
    exact hs
  · have hbal1 : 0 ≤ ({ fa with balance := fa.balance - amount } : Account).balance := by
      simp only []
      omega
    have hbal2 : 0 ≤ ({ ta with balance := ta.balance + credit } : Account).balance := by
      simp only []
      omega
    cases h1 : alookup s.accounts fa.id with
    | none =>
      rw [transferFinish_nofa hb h1]
      exact hs
    | some w1 =>
      cases h2 : alookup (aupdate s.accounts fa.id
          { fa with balance := fa.balance - amount }) ta.id with
      | none =>
        rw [transferFinish_nota hb h1 h2]
        exact NonNegA_aupdate hs hbal1
      | some w2 =>
        cases htx : alookup s.txs (s.nextTx + 1) with
        | none =>
          rw [transferFinish_ok hb h1 h2 htx]
          exact NonNegA_aupdate (NonNegA_aupdate hs hbal1) hbal2
        | some t0 =>
          rw [transferFinish_txdup hb h1 h2 htx]
          exact NonNegA_aupdate (NonNegA_aupdate hs hbal1) hbal2

theorem NonNeg_Transfer {s : Snapshot} (now : Nat) (r : Rates) (fromA toA : Nat)
    (amount : Int) (note : String)
    (hs : NonNeg s) : NonNeg (Transfer s now r fromA toA amount note).2 := by
  by_cases hA : amount ≤ 0
  · rw [Transfer_nonpos hA]
    exact hs
  · cases h2 : alookup s.accounts fromA with
    | none =>
      rw [Transfer_nofrom hA h2]
      exact hs
    | some fa =>
      cases h3 : alookup s.accounts toA with
      | none =>
        rw [Transfer_noto hA h2 h3]
        exact hs
      | some ta =>
        have hta : 0 ≤ ta.balance := NonNegA_lookup hs h3
        by_cases hc : fa.currency = ta.currency
        · rw [Transfer_same hA h2 h3 hc]
          exact NonNeg_transferFinish now note hs hta (by omega)
        · cases hcv : ConvertAmount r fa.currency ta.currency amount with
          | ok credit =>
            rw [Transfer_fx hA h2 h3 hc hcv]
            exact NonNeg_transferFinish now _ hs hta
              (ConvertAmount_pos (by omega) hcv)
          | err e =>
            rw [Transfer_fxerr hA h2 h3 hc hcv]
            exact hs

theorem NonNeg_Register {s : Snapshot} (now : Nat) (username password : String)
    (hs : NonNeg s) : NonNeg (Register s now username password).2 := by
  by_cases h : (trimStr username).length < 3
  · rw [Register_shortname h]
    exact hs
  · by_cases h2 : password.length < 4
    · rw [Register_shortpass h h2]
      exact hs
    · cases h3 : getUserByUsername s (trimStr username) with
      | ok u =>
        rw [Register_exists h h2 h3]
        exact hs
      | err e =>
        cases h4 : alookup s.users (s.nextUser + 1) with
        | none =>
          rw [Register_ok h h2 h3 h4]
          exact hs
        | some u0 =>
          rw [Register_dup h h2 h3 h4]
          exact hs

theorem NonNeg_CreateAccount {s : Snapshot} (now owner : Nat) (currency : String)
    (hs : NonNeg s) : NonNeg (CreateAccount s now owner currency).2 := by
  cases h : alookup s.accounts (s.nextAcc + 1) with
  | none =>
    rw [CreateAccount_ok h]
    exact NonNegA_ainsert hs (by simp only []; omega)
  | some w =>
    rw [CreateAccount_dup h]
    exact hs

theorem NonNeg_execOp {s : Snapshot} (op : Op) (hs : NonNeg s) : NonNeg (execOp s op) := by
  cases op with
  | register now u p => exact NonNeg_Register now u p hs
  | createAccount now o c => exact NonNeg_CreateAccount now o c hs
  | deposit now aid a n => exact NonNeg_Deposit now aid a n hs
  | withdraw now aid a n => exact NonNeg_Withdraw now aid a n hs
  | transfer now r f t a n => exact NonNeg_Transfer now r f t a n hs

theorem NonNeg_execOps {s : Snapshot} (ops : List Op) (hs : NonNeg s) :
    NonNeg (execOps s ops) := by
  induction ops generalizing s with
  | nil => exact hs
  | cons op rest ih => exact ih (NonNeg_execOp op hs)

end LedgerBot

namespace LedgerBot

/-! StoreInv (id counters + key agreement) is preserved by every
operation. -/

theorem KMA_aupdate {m : List (Nat × Account)} (h : ∀ p ∈ m, (p.2 : Account).id = p.1)
    {k : Nat} {v : Account} (hv : v.id = k) :
    ∀ p ∈ aupdate m k v, (p.2 : Account).id = p.1 := by
  intro p hp
  rcases mem_aupdate hp with he | hm
  · rw [he]
    exact hv
  · exact h p hm

theorem KMA_ainsert {m : List (Nat × Account)} (h : ∀ p ∈ m, (p.2 : Account).id = p.1)
    {k : Nat} {v : Account} (hv : v.id = k) :
    ∀ p ∈ ainsert m k v, (p.2 : Account).id = p.1 := by
  intro p hp
  rcases mem_ainsert.mp hp with hm | he
  · exact h p hm
  · rw [he]
    exact hv

theorem StoreInv_Deposit {s : Snapshot} (now aid : Nat) (amount : Int) (note : String)
    (hs : StoreInv s) : StoreInv (Deposit s now aid amount note).2 := by
  obtain ⟨⟨hu, ha, ht⟩, hk⟩ := hs
  by_cases hA : amount ≤ 0
  · rw [Deposit_nonpos hA]
    exact ⟨⟨hu, ha, ht⟩, hk⟩
  · cases h2 : alookup s.accounts aid with
    | none =>
      rw [Deposit_noacct hA h2]
      exact ⟨⟨hu, ha, ht⟩, hk⟩
    | some a =>
      cases hup : alookup s.accounts a.id with
      | none =>
        rw [Deposit_upd_none hA h2 hup]
        exact ⟨⟨hu, ha, ht⟩, hk⟩
      | some w =>
        cases htx : alookup s.txs (s.nextTx + 1) with
        | none =>
          rw [Deposit_ok hA h2 hup htx]
          exact ⟨⟨⟨hu.1.mono (Nat.le_succ _), hu.2⟩,
                  ⟨(KeysLe_aupdate ha.1).mono (Nat.le_succ _), KeysOrdered_aupdate ha.2⟩,
                  ⟨KeysLe_ainsert (ht.1.mono (Nat.le_succ _)) (le_refl _),
                   KeysOrdered_ainsert ht.2 (fun p hp => Nat.lt_succ_of_le (ht.1 p hp))⟩⟩,
                KMA_aupdate hk (by rfl)⟩
        | some t0 =>
          rw [Deposit_txdup hA h2 hup htx]
          exact ⟨⟨⟨hu.1.mono (Nat.le_succ _), hu.2⟩,
                  ⟨(KeysLe_aupdate ha.1).mono (Nat.le_succ _), KeysOrdered_aupdate ha.2⟩,
                  ⟨ht.1.mono (Nat.le_succ _), ht.2⟩⟩,
                KMA_aupdate hk (by rfl)⟩

theorem StoreInv_Withdraw {s : Snapshot} (now aid : Nat) (amount : Int) (note : String)
    (hs : StoreInv s) : StoreInv (Withdraw s now aid amount note).2 := by
  obtain ⟨⟨hu, ha, ht⟩, hk⟩ := hs
  by_cases hA : amount ≤ 0
  · rw [Withdraw_nonpos hA]
    exact ⟨⟨hu, ha, ht⟩, hk⟩
  · cases h2 : alookup s.accounts aid with
    | none =>
      rw [Withdraw_noacct hA h2]
      exact ⟨⟨hu, ha, ht⟩, hk⟩
    | some a =>
      by_cases hb : a.balance < amount
      · rw [Withdraw_insufficient hA h2 hb]
        exact ⟨⟨hu, ha, ht⟩, hk⟩
      · cases hup : alookup s.accounts a.id with
        | none =>
          unfold Withdraw
          rw [if_neg hA, getAccount_some h2]
          simp only [resCase_ok]
          rw [if_neg hb]
          rw [updateAccountStore_none (show alookup s.accounts
            ({ a with balance := a.balance - amount } : Account).id = none from hup)]
          simp only [stepCase_err]
          exact ⟨⟨hu, ha, ht⟩, hk⟩
        | some w =>
          cases htx : alookup s.txs (s.nextTx + 1) with
          | none =>
            rw [Withdraw_ok hA h2 hb hup htx]
            exact ⟨⟨⟨hu.1.mono (Nat.le_succ _), hu.2⟩,
                    ⟨(KeysLe_aupdate ha.1).mono (Nat.le_succ _), KeysOrdered_aupdate ha.2⟩,
                    ⟨KeysLe_ainsert (ht.1.mono (Nat.le_succ _)) (le_refl _),
                     KeysOrdered_ainsert ht.2 (fun p hp => Nat.lt_succ_of_le (ht.1 p hp))⟩⟩,
                  KMA_aupdate hk (by rfl)⟩
          | some t0 =>
            unfold Withdraw
            rw [if_neg hA, getAccount_some h2]
            simp only [resCase_ok]
            rw [if_neg hb]
            rw [updateAccountStore_some (show alookup s.accounts
              ({ a with balance := a.balance - amount } : Account).id = some w from hup)]
            simp only [stepCase_ok, nextIDs]
            rw [createTxStore_dup (by simpa using htx)]
            simp only [stepCase_err]
            exact ⟨⟨⟨hu.1.mono (Nat.le_succ _), hu.2⟩,
                    ⟨(KeysLe_aupdate ha.1).mono (Nat.le_succ _), KeysOrdered_aupdate ha.2⟩,
                    ⟨ht.1.mono (Nat.le_succ _), ht.2⟩⟩,
                  KMA_aupdate hk (by rfl)⟩

theorem StoreInv_transferFinish {s : Snapshot} (now : Nat) {fa ta : Account}
    (amount credit : Int) (note : String)
    (hs : StoreInv s) : StoreInv (transferFinish s now fa ta amount credit note).2 := by
  obtain ⟨⟨hu, ha, ht⟩, hk⟩ := hs
  by_cases hb : fa.balance < amount
  · rw [transferFinish_insufficient hb]
    exact ⟨⟨hu, ha, ht⟩, hk⟩
  · cases h1 : alookup s.accounts fa.id with
    | none =>
      rw [transferFinish_nofa hb h1]
      exact ⟨⟨hu, ha, ht⟩, hk⟩
    | some w1 =>
      cases h2 : alookup (aupdate s.accounts fa.id
          { fa with balance := fa.balance - amount }) ta.id with
      | none =>
        rw [transferFinish_nota hb h1 h2]
        exact ⟨⟨hu, ⟨KeysLe_aupdate ha.1, KeysOrdered_aupdate ha.2⟩, ht⟩,
               KMA_aupdate hk (by rfl)⟩
      | some w2 =>
        cases htx : alookup s.txs (s.nextTx + 1) with
        | none =>
          rw [transferFinish_ok hb h1 h2 htx]
          exact ⟨⟨⟨hu.1.mono (Nat.le_succ _), hu.2⟩,
                  ⟨(KeysLe_aupdate (KeysLe_aupdate ha.1)).mono (Nat.le_succ _),
                   KeysOrdered_aupdate (KeysOrdered_aupdate ha.2)⟩,
                  ⟨KeysLe_ainsert (ht.1.mono (Nat.le_succ _)) (le_refl _),
                   KeysOrdered_ainsert ht.2 (fun p hp => Nat.lt_succ_of_le (ht.1 p hp))⟩⟩,
                KMA_aupdate (KMA_aupdate hk (by rfl)) (by rfl)⟩
        | some t0 =>
          rw [transferFinish_txdup hb h1 h2 htx]
          exact ⟨⟨⟨hu.1.mono (Nat.le_succ _), hu.2⟩,
                  ⟨(KeysLe_aupdate (KeysLe_aupdate ha.1)).mono (Nat.le_succ _),
                   KeysOrdered_aupdate (KeysOrdered_aupdate ha.2)⟩,
                  ⟨ht.1.mono (Nat.le_succ _), ht.2⟩⟩,
                KMA_aupdate (KMA_aupdate hk (by rfl)) (by rfl)⟩

theorem StoreInv_Transfer {s : Snapshot} (now : Nat) (r : Rates) (fromA toA : Nat)
    (amount : Int) (note : String)
    (hs : StoreInv s) : StoreInv (Transfer s now r fromA toA amount note).2 := by
  by_cases hA : amount ≤ 0
  · rw [Transfer_nonpos hA]
    exact hs
  · cases h2 : alookup s.accounts fromA with
    | none =>
      rw [Transfer_nofrom hA h2]
      exact hs
    | some fa =>
      cases h3 : alookup s.accounts toA with
      | none =>
        rw [Transfer_noto hA h2 h3]
        exact hs
      | some ta =>
        by_cases hc : fa.currency = ta.currency
        · rw [Transfer_same hA h2 h3 hc]
          exact StoreInv_transferFinish now amount amount note hs
        · cases hcv : ConvertAmount r fa.currency ta.currency amount with
          | ok credit =>
            rw [Transfer_fx hA h2 h3 hc hcv]
            exact StoreInv_transferFinish now amount credit _ hs
          | err e =>
            rw [Transfer_fxerr hA h2 h3 hc hcv]
            exact hs

theorem StoreInv_Register {s : Snapshot} (now : Nat) (username password : String)
    (hs : StoreInv s) : StoreInv (Register s now username password).2 := by
  obtain ⟨⟨hu, ha, ht⟩, hk⟩ := hs
  by_cases h : (trimStr username).length < 3
  · rw [Register_shortname h]
    exact ⟨⟨hu, ha, ht⟩, hk⟩
  · by_cases h2 : password.length < 4
    · rw [Register_shortpass h h2]
      exact ⟨⟨hu, ha, ht⟩, hk⟩
    · cases h3 : getUserByUsername s (trimStr username) with
      | ok u =>
        rw [Register_exists h h2 h3]
        exact ⟨⟨hu, ha, ht⟩, hk⟩
      | err e =>
        cases h4 : alookup s.users (s.nextUser + 1) with
        | none =>
          rw [Register_ok h h2 h3 h4]
          exact ⟨⟨⟨KeysLe_ainsert (hu.1.mono (Nat.le_succ _)) (le_refl _),
                   KeysOrdered_ainsert hu.2 (fun p hp => Nat.lt_succ_of_le (hu.1 p hp))⟩,
                  ⟨ha.1.mono (Nat.le_succ _), ha.2⟩,
                  ⟨ht.1.mono (Nat.le_succ _), ht.2⟩⟩,
                hk⟩
        | some u0 =>
          rw [Register_dup h h2 h3 h4]
          exact ⟨⟨⟨hu.1.mono (Nat.le_succ _), hu.2⟩,
                  ⟨ha.1.mono (Nat.le_succ _), ha.2⟩,
                  ⟨ht.1.mono (Nat.le_succ _), ht.2⟩⟩,
                hk⟩

theorem StoreInv_CreateAccount {s : Snapshot} (now owner : Nat) (currency : String)
    (hs : StoreInv s) : StoreInv (CreateAccount s now owner currency).2 := by
  obtain ⟨⟨hu, ha, ht⟩, hk⟩ := hs
  cases h : alookup s.accounts (s.nextAcc + 1) with
  | some w =>
    rw [CreateAccount_dup h]
    exact ⟨⟨⟨hu.1.mono (Nat.le_succ _), hu.2⟩,
            ⟨ha.1.mono (Nat.le_succ _), ha.2⟩,
            ⟨ht.1.mono (Nat.le_succ _), ht.2⟩⟩,
          hk⟩
  | none =>
    rw [CreateAccount_ok h]
    cases ho : alookup s.users owner with
    | some u =>
      refine ⟨⟨⟨?_, ?_⟩, ?_, ?_⟩, ?_⟩
      · simp only [ho]
        exact (KeysLe_aupdate hu.1).mono (Nat.le_succ _)
      · simp only [ho]
        exact KeysOrdered_aupdate hu.2
      · exact ⟨KeysLe_ainsert (ha.1.mono (Nat.le_succ _)) (le_refl _),
               KeysOrdered_ainsert ha.2 (fun p hp => Nat.lt_succ_of_le (ha.1 p hp))⟩
      · exact ⟨ht.1.mono (Nat.le_succ _), ht.2⟩
      · exact KMA_ainsert hk (by rfl)
    | none =>
      refine ⟨⟨⟨?_, ?_⟩, ?_, ?_⟩, ?_⟩
      · simp only [ho]
        exact hu.1.mono (Nat.le_succ _)
      · simp only [ho]
        exact hu.2
      · exact ⟨KeysLe_ainsert (ha.1.mono (Nat.le_succ _)) (le_refl _),
               KeysOrdered_ainsert ha.2 (fun p hp => Nat.lt_succ_of_le (ha.1 p hp))⟩
      · exact ⟨ht.1.mono (Nat.le_succ _), ht.2⟩
      · exact KMA_ainsert hk (by rfl)

theorem StoreInv_execOp {s : Snapshot} (op : Op) (hs : StoreInv s) :
    StoreInv (execOp s op) := by
  cases op with
  | register now u p => exact StoreInv_Register now u p hs
  | createAccount now o c => exact StoreInv_CreateAccount now o c hs
  | deposit now aid a n => exact StoreInv_Deposit now aid a n hs
  | withdraw now aid a n => exact StoreInv_Withdraw now aid a n hs
  | transfer now r f t a n => exact StoreInv_Transfer now r f t a n hs

theorem StoreInv_execOps {s : Snapshot} (ops : List Op) (hs : StoreInv s) :
    StoreInv (execOps s ops) := by
  induction ops generalizing s with
  | nil => exact hs
  | cons op rest ih => exact ih (StoreInv_execOp op hs)

theorem StoreInv_init (now : Nat) : StoreInv (initSnapshot now) := by
  refine ⟨⟨⟨?_, ?_⟩, ⟨?_, ?_⟩, ⟨?_, ?_⟩⟩, ?_⟩ <;> simp [initSnapshot, KeysLe, KeysOrdered, List.Pairwise.nil]
  all_goals intro p hp
  all_goals simp at hp

end LedgerBot

namespace LedgerBot

/-! Validation errors leave the snapshot untouched (given the reachable
state invariants that rule out a CreateTx id collision and account key
mismatch). -/

theorem txFresh {s : Snapshot} (hTx : TxBound s) : alookup s.txs (s.nextTx + 1) = none :=
  alookup_eq_none_of_lt hTx (Nat.lt_succ_self _)

theorem Deposit_err_frame {s : Snapshot} {now aid : Nat} {amount : Int} {note : String}
    (hTx : TxBound s) (he : (Deposit s now aid amount note).1.isErr = true) :
    (Deposit s now aid amount note).2 = s := by
  by_cases hA : amount ≤ 0
  · rw [Deposit_nonpos hA]
  · cases h2 : alookup s.accounts aid with
    | none => rw [Deposit_noacct hA h2]
    | some a =>
      cases hup : alookup s.accounts a.id with
      | none => rw [Deposit_upd_none hA h2 hup]
      | some w =>
        rw [Deposit_ok hA h2 hup (txFresh hTx)] at he
        simp [Res.isErr] at he

theorem Withdraw_err_frame {s : Snapshot} {now aid : Nat} {amount : Int} {note : String}
    (hTx : TxBound s) (he : (Withdraw s now aid amount note).1.isErr = true) :
    (Withdraw s now aid amount note).2 = s := by
  by_cases hA : amount ≤ 0
  · rw [Withdraw_nonpos hA]
  · cases h2 : alookup s.accounts aid with
    | none => rw [Withdraw_noacct hA h2]
    | some a =>
      by_cases hb : a.balance < amount
      · rw [Withdraw_insufficient hA h2 hb]
      · cases hup : alookup s.accounts a.id with
        | none =>
          unfold Withdraw
          rw [if_neg hA, getAccount_some h2]
          simp only [resCase_ok]
          rw [if_neg hb]
          rw [updateAccountStore_none (show alookup s.accounts
            ({ a with balance := a.balance - amount } : Account).id = none from hup)]
          simp only [stepCase_err]
        | some w =>
          rw [Withdraw_ok hA h2 hb hup (txFresh hTx)] at he
          simp [Res.isErr] at he

theorem Transfer_err_frame {s : Snapshot} {now : Nat} {r : Rates} {fromA toA : Nat}
    {amount : Int} {note : String}
    (hTx : TxBound s) (hKM : KeysMatchA s)
    (he : (Transfer s now r fromA toA amount note).1.isErr = true) :
    (Transfer s now r fromA toA amount note).2 = s := by
  by_cases hA : amount ≤ 0
  · rw [Transfer_nonpos hA]
  · cases h2 : alookup s.accounts fromA with
    | none => rw [Transfer_nofrom hA h2]
    | some fa =>
      cases h3 : alookup s.accounts toA with
      | none => rw [Transfer_noto hA h2 h3]
      | some ta =>
        have hfid : fa.id = fromA := hKM (fromA, fa) (alookup_mem h2)
        have htid : ta.id = toA := hKM (toA, ta) (alookup_mem h3)
        have h1 : alookup s.accounts fa.id = some fa := by rw [hfid]; exact h2
        have h2up : alookup (aupdate s.accounts fa.id
            { fa with balance := fa.balance - amount }) ta.id
            = some (if ta.id = fa.id then { fa with balance := fa.balance - amount } else ta) := by
          by_cases hsame : ta.id = fa.id
          · rw [if_pos hsame, hsame]
            exact alookup_aupdate_self h1
          · rw [if_neg hsame, alookup_aupdate_ne (fun hx => hsame hx.symm)]
            rw [htid]
            exact h3
        have hfin : ∀ credit note2, ¬fa.balance < amount →
            (transferFinish s now fa ta amount credit note2).1.isErr = true →
            (transferFinish s now fa ta amount credit note2).2 = s := by
          intro credit note2 hb hfe
          rw [transferFinish_ok hb h1 h2up (txFresh hTx)] at hfe
          simp [Res.isErr] at hfe
        by_cases hc : fa.currency = ta.currency
        · rw [Transfer_same hA h2 h3 hc] at he ⊢
          by_cases hb : fa.balance < amount
          · rw [transferFinish_insufficient hb]
          · exact hfin amount note hb he
        · cases hcv : ConvertAmount r fa.currency ta.currency amount with
          | ok credit =>
            rw [Transfer_fx hA h2 h3 hc hcv] at he ⊢
            by_cases hb : fa.balance < amount
            · rw [transferFinish_insufficient hb]
            · exact hfin credit _ hb he
          | err e =>
            rw [Transfer_fxerr hA h2 h3 hc hcv]

end LedgerBot

namespace LedgerBot

/-! The naive ListTxByAccount sort: permutation and sortedness by
CreatedAt (and nothing more — ties stay in whatever order the map
iteration produced them, possibly shuffled by the non-stable swaps). -/

theorem bubbleStep_le (cur : Transaction) (l : List Transaction) :
    (bubbleStep cur l).1.createdAt ≤ cur.createdAt := by
  induction l generalizing cur with
  | nil => exact le_refl _
  | cons x xs ih =>
    simp only [bubbleStep]
    split
    · next hlt => exact le_trans (ih x) (le_of_lt hlt)
    · exact ih cur

theorem bubbleStep_min (cur : Transaction) (l : List Transaction) :
    ∀ y ∈ (bubbleStep cur l).2, (bubbleStep cur l).1.createdAt ≤ y.createdAt := by
  induction l generalizing cur with
  | nil => intro y hy; simp [bubbleStep] at hy
  | cons x xs ih =>
    intro y hy
    simp only [bubbleStep] at hy ⊢
    split
    · next hlt =>
      rw [if_pos hlt] at hy
      simp only [List.mem_cons] at hy
      rcases hy with hc | hm
      · rw [hc]
        exact le_trans (le_trans (bubbleStep_le x xs) (le_of_lt hlt)) (le_refl _)
      · exact ih x y hm
    · next hge =>
      rw [if_neg hge] at hy
      simp only [List.mem_cons] at hy
      rcases hy with hc | hm
      · rw [hc]
        exact le_trans (bubbleStep_le cur xs) (le_of_not_lt hge)
      · exact ih cur y hm

theorem bubbleStep_perm (cur : Transaction) (l : List Transaction) :
    ((bubbleStep cur l).1 :: (bubbleStep cur l).2).Perm (cur :: l) := by
  induction l generalizing cur with
  | nil => exact List.Perm.refl _
  | cons x xs ih =>
    simp only [bubbleStep]
    split
    · exact (List.Perm.swap _ _ _).trans ((ih x).cons cur)
    · exact ((List.Perm.swap _ _ _).trans (((ih cur).cons x))).trans (List.Perm.swap _ _ _)

theorem naiveSortGo_perm (n : Nat) (l : List Transaction) (h : n = l.length) :
    (naiveSortGo n l).Perm l := by
  induction n generalizing l with
  | zero =>
    cases l with
    | nil => exact List.Perm.refl _
    | cons x xs => simp at h
  | succ n ih =>
    cases l with
    | nil => simp at h
    | cons x xs =>
      have hn : n = (bubbleStep x xs).2.length := by
        rw [bubbleStep_length]
        simpa using h
      exact ((ih _ hn).cons _).trans (bubbleStep_perm x xs)

theorem naiveSort_perm (l : List Transaction) : (naiveSort l).Perm l :=
  naiveSortGo_perm l.length l rfl

theorem naiveSortGo_sorted (n : Nat) (l : List Transaction) (h : n = l.length) :
    (naiveSortGo n l).Pairwise (fun a b => a.createdAt ≤ b.createdAt) := by
  induction n generalizing l with
  | zero => exact List.Pairwise.nil
  | succ n ih =>
    cases l with
    | nil => exact List.Pairwise.nil
    | cons x xs =>
      have hn : n = (bubbleStep x xs).2.length := by
        rw [bubbleStep_length]
        simpa using h
      refine List.Pairwise.cons ?_ (ih _ hn)
      intro y hy
      exact bubbleStep_min x xs y ((naiveSortGo_perm n _ hn).subset hy)

theorem naiveSort_sorted (l : List Transaction) :
    (naiveSort l).Pairwise (fun a b => a.createdAt ≤ b.createdAt) :=
  naiveSortGo_sorted l.length l rfl

end LedgerBot

namespace LedgerBot

/-! ConvertAmount agrees with the specification formula. -/

theorem ratTrunc_clamp (q : ℚ) :
    (if ratTrunc q ≤ 0 then 1 else ratTrunc q) = max 1 ⌊q⌋ := by
  unfold ratTrunc
  by_cases hq : 0 ≤ q
  · rw [if_pos hq]
    by_cases hf : ⌊q⌋ ≤ 0
    · rw [if_pos hf]
      omega
    · rw [if_neg hf]
      omega
  · rw [if_neg hq]
    have h1 : ⌊-q⌋ ≥ 0 := Int.floor_nonneg.mpr (by linarith)
    rw [if_pos (by omega)]
    have h2 : ⌊q⌋ ≤ 0 := Int.floor_nonpos (by linarith)
    omega

theorem ConvertAmount_eq_spec {r : Rates} {c1 c2 : String} {amount : Int}
    {fr tr : ℚ}
    (hne : upperStr c1 ≠ upperStr c2)
    (h1 : r.pairs.lookup (upperStr c1) = some fr)
    (h2 : r.pairs.lookup (upperStr c2) = some tr) :
    ConvertAmount r c1 c2 amount = .ok (specConvert fr tr amount) := by
  unfold ConvertAmount
  rw [if_neg hne, h1, h2]
  simp only []
  rw [ratTrunc_clamp]
  unfold specConvert
  rfl

theorem ConvertAmount_same {r : Rates} {c1 c2 : String} {amount : Int}
    (he : upperStr c1 = upperStr c2) :
    ConvertAmount r c1 c2 amount = .ok amount := by
  unfold ConvertAmount
  rw [if_pos he]

theorem ConvertAmount_unknown {r : Rates} {c1 c2 : String} {amount : Int}
    (hne : upperStr c1 ≠ upperStr c2)
    (h : r.pairs.lookup (upperStr c1) = none ∨ r.pairs.lookup (upperStr c2) = none) :
    ConvertAmount r c1 c2 amount = .err "неизвестная валюта" := by
  unfold ConvertAmount
  rw [if_neg hne]
  rcases h with h | h
  · rw [h]
  · rw [h]
    cases h1 : r.pairs.lookup (upperStr c1) <;> rfl

theorem specConvert_id {rr : ℚ} {amount : Int} (hr : rr ≠ 0) (ha : 0 < amount) :
    specConvert rr rr amount = amount := by
  unfold specConvert
  rw [show (amount : ℚ) / 100 / rr * rr * 100 = (amount : ℚ) by field_simp; ring]
  rw [show ((amount : ℚ) + 1 / 2) = ((1 : ℚ) / 2 + (amount : ℤ)) by ring]
  rw [Int.floor_add_int]
  have hz : ⌊(1 : ℚ) / 2⌋ = 0 := by norm_num
  rw [hz]
  omega

end LedgerBot

namespace MinerBank

/-! Accrual lemmas for the cmd/bank (miner) variant. -/

theorem accrueOnInteraction_fields (catalog : List (Nat × ℚ)) (u : MUser) (now : ℚ) :
    (accrueOnInteraction catalog u now).lastAccrualAt = now ∧
    (accrueOnInteraction catalog u now).miningWindowEnd = now + miningWindow :=
  ⟨rfl, rfl⟩

theorem accrueOnInteraction_pastWindow (catalog : List (Nat × ℚ)) (u : MUser) (now : ℚ)
    (h1 : u.miningWindowEnd < now) (h2 : u.lastAccrualAt < u.miningWindowEnd) :
    (accrueOnInteraction catalog u now).balance
      = u.balance + totalRate catalog u * (u.miningWindowEnd - u.lastAccrualAt) := by
  unfold accrueOnInteraction
  rw [if_neg (not_lt.mpr (le_of_lt h1))]
  simp only []
  rw [if_pos h2]

theorem accrueOnInteraction_inWindow (catalog : List (Nat × ℚ)) (u : MUser) (now : ℚ)
    (h1 : now ≤ u.miningWindowEnd) (h2 : u.lastAccrualAt < now) :
    (accrueOnInteraction catalog u now).balance
      = u.balance + totalRate catalog u * (now - u.lastAccrualAt) := by
  unfold accrueOnInteraction
  by_cases hlt : now < u.miningWindowEnd
  · rw [if_pos hlt]
    simp only []
    rw [if_pos h2]
  · have he : u.miningWindowEnd = now := le_antisymm (not_lt.mp hlt) h1
    rw [if_neg hlt, he]
    simp only []
    rw [if_pos h2]

theorem accrueOnInteraction_sameInstant (catalog : List (Nat × ℚ)) (v : MUser) (now : ℚ)
    (hl : v.lastAccrualAt = now) :
    (accrueOnInteraction catalog v now).balance = v.balance := by
  unfold accrueOnInteraction
  by_cases hlt : now < v.miningWindowEnd
  · rw [if_pos hlt]
    simp only []
    rw [if_neg (by rw [hl]; exact lt_irrefl now)]
  · rw [if_neg hlt]
    simp only []
    rw [if_neg (by rw [hl]; exact not_lt.mpr (not_lt.mp hlt))]

theorem accrueOnInteraction_idem (catalog : List (Nat × ℚ)) (u : MUser) (now : ℚ) :
    (accrueOnInteraction catalog (accrueOnInteraction catalog u now) now).balance
      = (accrueOnInteraction catalog u now).balance :=
  accrueOnInteraction_sameInstant catalog _ now
    (accrueOnInteraction_fields catalog u now).1

end MinerBank

namespace GpuBot

/-! Accrual lemmas for the src/main.go (GPU bot) variant. -/

theorem accrueEarnings_fields (g bz : List (Nat × ℚ)) (u : GUser) (now : ℚ) :
    (accrueEarnings g bz u now).lastAccrualAt = now ∧
    (accrueEarnings g bz u now).miningWindowEnd = now + miningWindow :=
  ⟨rfl, rfl⟩

theorem accrueEarnings_pastWindow (g bz : List (Nat × ℚ)) (u : GUser) (now : ℚ)
    (h : u.miningWindowEnd ≤ now) :
    (accrueEarnings g bz u now).balanceBTC = u.balanceBTC ∧
    (accrueEarnings g bz u now).balanceUSD = u.balanceUSD := by
  unfold accrueEarnings
  rw [if_neg (not_lt.mpr h)]
  exact ⟨rfl, rfl⟩

theorem accrueEarnings_inWindow (g bz : List (Nat × ℚ)) (u : GUser) (now : ℚ)
    (h : now < u.miningWindowEnd) :
    (accrueEarnings g bz u now).balanceBTC
      = u.balanceBTC + totalMiningRate g u * ((now - u.lastAccrualAt) / 60 / 10)
        + totalBusinessIncome bz u * ((now - u.lastAccrualAt) / 60 / 10) := by
  unfold accrueEarnings
  rw [if_pos h]
  simp only [totalBusinessIncome]

theorem accrueEarnings_sameInstant (g bz : List (Nat × ℚ)) (v : GUser) (now : ℚ)
    (hl : v.lastAccrualAt = now) :
    (accrueEarnings g bz v now).balanceBTC = v.balanceBTC ∧
    (accrueEarnings g bz v now).balanceUSD = v.balanceUSD := by
  unfold accrueEarnings
  by_cases hlt : now < v.miningWindowEnd
  · rw [if_pos hlt, hl]
    constructor
    · simp only []
      ring_nf
    · rfl
  · rw [if_neg hlt]
    exact ⟨rfl, rfl⟩

theorem accrueEarnings_idem (g bz : List (Nat × ℚ)) (u : GUser) (now : ℚ) :
    (accrueEarnings g bz (accrueEarnings g bz u now) now).balanceBTC
      = (accrueEarnings g bz u now).balanceBTC :=
  (accrueEarnings_sameInstant g bz _ now (accrueEarnings_fields g bz u now).1).1

end GpuBot

namespace LedgerBot

/-! Lemmas about the exact int64 models: wrap64 arithmetic and the
characterizations of WithdrawW and TransferW (mirroring those of the
idealized Withdraw and Transfer). -/

theorem wrap64_eq_self {n : Int} (h1 : -(2 ^ 63) ≤ n) (h2 : n < 2 ^ 63) : wrap64 n = n := by
  unfold wrap64
  omega

theorem wrap64_overflow {n : Int} (h1 : 2 ^ 63 ≤ n) (h2 : n < 2 ^ 64) :
    wrap64 n = n - 2 ^ 64 := by
  unfold wrap64
  omega

theorem WithdrawW_insufficient {s : Snapshot} {now aid : Nat} {amount : Int} {note : String}
    {a : Account}
    (h : ¬amount ≤ 0) (h2 : alookup s.accounts aid = some a) (h3 : a.balance < amount) :
    WithdrawW s now aid amount note = (.err "недостаточно средств", s) := by
  unfold WithdrawW
  rw [if_neg h, getAccount_some h2]
  simp only [resCase_ok]
  rw [if_pos h3]

theorem WithdrawW_ok {s : Snapshot} {now aid : Nat} {amount : Int} {note : String}
    {a w : Account}
    (h : ¬amount ≤ 0) (h2 : alookup s.accounts aid = some a)
    (hb : ¬a.balance < amount)
    (hup : alookup s.accounts a.id = some w)
    (h3 : alookup s.txs (s.nextTx + 1) = none) :
    WithdrawW s now aid amount note
      = (.ok { id := s.nextTx + 1, type := .withdraw, From := some a.id, To := none,
               amount := amount, currency := a.currency, note := note, createdAt := now },
         { s with
             accounts := aupdate s.accounts a.id
               { a with balance := wrap64 (a.balance - amount) },
             txs := ainsert s.txs (s.nextTx + 1)
               { id := s.nextTx + 1, type := .withdraw, From := some a.id, To := none,
                 amount := amount, currency := a.currency, note := note, createdAt := now },
             nextUser := s.nextUser + 1, nextAcc := s.nextAcc + 1, nextTx := s.nextTx + 1,
             updatedAt := now }) := by
  unfold WithdrawW
  rw [if_neg h, getAccount_some h2]
  simp only [resCase_ok]
  rw [if_neg hb]
  rw [updateAccountStore_some (show alookup s.accounts
    ({ a with balance := wrap64 (a.balance - amount) } : Account).id = some w from hup)]
  simp only [stepCase_ok, nextIDs]
  rw [createTxStore_fresh (by simpa using h3)]
  simp only [stepCase_ok]

theorem transferFinishW_insufficient {s : Snapshot} {now : Nat} {fa ta : Account}
    {amount credit : Int} {note : String}
    (h : fa.balance < amount) :
    transferFinishW s now fa ta amount credit note = (.err "недостаточно средств", s) := by
  unfold transferFinishW
  rw [if_pos h]

theorem transferFinishW_ok {s : Snapshot} {now : Nat} {fa ta : Account}
    {amount credit : Int} {note : String} {w1 w2 : Account}
    (h : ¬fa.balance < amount)
    (h1 : alookup s.accounts fa.id = some w1)
    (h2 : alookup (aupdate s.accounts fa.id
        { fa with balance := wrap64 (fa.balance - amount) }) ta.id = some w2)
    (h3 : alookup s.txs (s.nextTx + 1) = none) :
    transferFinishW s now fa ta amount credit note
      = (.ok { id := s.nextTx + 1, type := .transfer, From := some fa.id, To := some ta.id,
               amount := amount, currency := fa.currency, note := note, createdAt := now },
         { s with
             accounts := aupdate (aupdate s.accounts fa.id
                 { fa with balance := wrap64 (fa.balance - amount) }) ta.id
               { ta with balance := wrap64 (ta.balance + credit) },
             txs := ainsert s.txs (s.nextTx + 1)
               { id := s.nextTx + 1, type := .transfer, From := some fa.id, To := some ta.id,
                 amount := amount, currency := fa.currency, note := note, createdAt := now },
             nextUser := s.nextUser + 1, nextAcc := s.nextAcc + 1, nextTx := s.nextTx + 1,
             updatedAt := now }) := by
  unfold transferFinishW
  rw [if_neg h]
  simp only []
  rw [updateAccountStore_some (show alookup s.accounts
    ({ fa with balance := wrap64 (fa.balance - amount) } : Account).id = some w1 from h1)]
  simp only [stepCase_ok]
  rw [updateAccountStore_some (show alookup _
    ({ ta with balance := wrap64 (ta.balance + credit) } : Account).id = some w2 from h2)]
  simp only [stepCase_ok, nextIDs]
  rw [createTxStore_fresh (by simpa using h3)]
  simp only [stepCase_ok]

theorem TransferW_same {s : Snapshot} {now : Nat} {r : Rates} {fromA toA : Nat}
    {amount : Int} {note : String} {fa ta : Account}
    (h : ¬amount ≤ 0) (h2 : alookup s.accounts fromA = some fa)
    (h3 : alookup s.accounts toA = some ta) (hc : fa.currency = ta.currency) :
    TransferW s now r fromA toA amount note = transferFinishW s now fa ta amount amount note := by
  unfold TransferW
  rw [if_neg h, getAccount_some h2]
  simp only [resCase_ok]
  rw [getAccount_some h3]
  simp only [resCase_ok]
  rw [if_pos hc]

end LedgerBot

namespace LedgerBot

/-! Concrete fixtures used by witnesses and counterexamples. -/

/-- A closed RUB account with 100 minor units. -/
def exAcctClosed : Account :=
  { id := 1, owner := 1, currency := "RUB", balance := 100, createdAt := 0, closed := true }

/-- A snapshot holding only the closed account. -/
def exSnapClosed : Snapshot := { initSnapshot 0 with accounts := [(1, exAcctClosed)], nextAcc := 1 }

/-- An open RUB account with 1000 minor units. -/
def exAcctSelf : Account :=
  { id := 1, owner := 1, currency := "RUB", balance := 1000, createdAt := 0, closed := false }

/-- A snapshot holding only the open account, used for self-transfer. -/
def exSnapSelf : Snapshot := { initSnapshot 0 with accounts := [(1, exAcctSelf)], nextAcc := 1 }

/-- An empty rates table (same-currency transfers never read it). -/
def exRatesEmpty : Rates := { base := "RUB", pairs := [] }

/-- The default rates file contents restricted to RUB and USD. -/
def exRates : Rates := { base := "RUB", pairs := [("RUB", 1), ("USD", 27 / 2500)] }

/-- An open RUB account holding 2^63 - 1 minor units, the largest int64
balance. -/
def exAcctRich : Account :=
  { id := 2, owner := 1, currency := "RUB", balance := 9223372036854775807,
    createdAt := 0, closed := false }

/-- A snapshot with the 1000-unit sender (account 1) and the maximal
receiver (account 2), used for the int64 overflow counterexample. -/
def exSnapWrap : Snapshot :=
  { initSnapshot 0 with accounts := [(1, exAcctSelf), (2, exAcctRich)], nextAcc := 2 }

/-- A deposit transaction on account 7 with the given id and timestamp. -/
def exTx (i c : Nat) : Transaction :=
  { id := i, type := .deposit, From := some 7, To := none, amount := 1,
    currency := "RUB", note := "", createdAt := c }

/-- Transactions created in id order 1, 2, 3 where 1 and 2 carry the same
timestamp and 3 an earlier one: the creation-order state of the store. -/
def exSnapTies : Snapshot :=
  { initSnapshot 0 with txs := [(1, exTx 1 10), (2, exTx 2 10), (3, exTx 3 5)], nextTx := 3 }

end LedgerBot

namespace MinerBank

/-- A miner-bot user mid-window: last accrual at 50s, window ends at 100s. -/
def exMUser : MUser :=
  { balance := 0, inventory := [1], lastAccrualAt := 50, miningWindowEnd := 100 }

end MinerBank

namespace GpuBot

/-- A GPU-bot user whose window ended at 100s with income accrued from 0s. -/
def exGUser : GUser :=
  { balanceBTC := 0, balanceUSD := 0, inventory := [1], businesses := [],
    lastAccrualAt := 0, miningWindowEnd := 100 }

end GpuBot

/-- C1: (amended) the window bound holds as claimed for the cmd/bank
accrual step accrueOnInteraction: a call strictly after the window end
with lastAccrualAt before the window end credits exactly the income
accrued from lastAccrualAt up to the window end, and a call inside the
window credits up to now; the src/main.go accrual step accrueEarnings,
however, credits NOTHING when now is at or beyond the window end — the
income earned inside the window before the call is lost, so the original
claim fails for it. -/
theorem C1_amended_windowBound :
    (∀ (catalog : List (Nat × ℚ)) (u : MinerBank.MUser) (now : ℚ),
      u.miningWindowEnd < now → u.lastAccrualAt < u.miningWindowEnd →
      (MinerBank.accrueOnInteraction catalog u now).balance
        = u.balance + MinerBank.totalRate catalog u * (u.miningWindowEnd - u.lastAccrualAt)) ∧
    (∀ (catalog : List (Nat × ℚ)) (u : MinerBank.MUser) (now : ℚ),
      now ≤ u.miningWindowEnd → u.lastAccrualAt < now →
      (MinerBank.accrueOnInteraction catalog u now).balance
        = u.balance + MinerBank.totalRate catalog u * (now - u.lastAccrualAt)) ∧
    (∀ (g bz : List (Nat × ℚ)) (u : GpuBot.GUser) (now : ℚ),
      u.miningWindowEnd ≤ now →
      (GpuBot.accrueEarnings g bz u now).balanceBTC = u.balanceBTC ∧
      (GpuBot.accrueEarnings g bz u now).balanceUSD = u.balanceUSD) :=
  ⟨MinerBank.accrueOnInteraction_pastWindow,
   MinerBank.accrueOnInteraction_inWindow,
   GpuBot.accrueEarnings_pastWindow⟩

/-- C1 witness: with one GPU of rate 2 per second, a call at 200s on a
window that ended at 100s with last accrual at 50s credits exactly
2 * (100 - 50). -/
theorem C1_witness :
    (MinerBank.accrueOnInteraction [(1, 2)] MinerBank.exMUser 200).balance
      = MinerBank.exMUser.balance + MinerBank.totalRate [(1, 2)] MinerBank.exMUser
          * (MinerBank.exMUser.miningWindowEnd - MinerBank.exMUser.lastAccrualAt) :=
  C1_amended_windowBound.1 [(1, 2)] MinerBank.exMUser 200
    (by norm_num [MinerBank.exMUser]) (by norm_num [MinerBank.exMUser])

/-- C1 counterexample: the claim as stated fails on accrueEarnings
(src/main.go): at now = 200, strictly after the window end 100, with
lastAccrualAt = 0 before the window end and a GPU of rate 1, the step
credits nothing, although the income accrued up to the window end
(1 * ((100 - 0)/60/10) BTC) is non-zero. -/
theorem C1_counterexample :
    (GpuBot.accrueEarnings [(1, 1)] [] GpuBot.exGUser 200).balanceBTC
        = GpuBot.exGUser.balanceBTC ∧
    GpuBot.exGUser.balanceBTC + GpuBot.totalMiningRate [(1, 1)] GpuBot.exGUser
        * ((GpuBot.exGUser.miningWindowEnd - GpuBot.exGUser.lastAccrualAt) / 60 / 10)
      ≠ GpuBot.exGUser.balanceBTC := by
  constructor
  · exact (GpuBot.accrueEarnings_pastWindow [(1, 1)] [] GpuBot.exGUser 200
      (by norm_num [GpuBot.exGUser])).1
  · have hr : GpuBot.totalMiningRate [(1, 1)] GpuBot.exGUser = 1 := by
      simp [GpuBot.totalMiningRate, GpuBot.exGUser, List.lookup]
    rw [hr]
    norm_num [GpuBot.exGUser]

/-- C9: the accrual step is idempotent under repeated immediate calls in
both variants: at now = lastAccrualAt the balance is unchanged while
lastAccrualAt and the window end are still refreshed to now and
now + WINDOW_DURATION, and an immediate second call at the same instant
adds nothing. -/
theorem C9_idempotentAccrual :
    (∀ (catalog : List (Nat × ℚ)) (u : MinerBank.MUser),
      (MinerBank.accrueOnInteraction catalog u u.lastAccrualAt).balance = u.balance ∧
      (MinerBank.accrueOnInteraction catalog u u.lastAccrualAt).lastAccrualAt
        = u.lastAccrualAt ∧
      (MinerBank.accrueOnInteraction catalog u u.lastAccrualAt).miningWindowEnd
        = u.lastAccrualAt + MinerBank.miningWindow) ∧
    (∀ (catalog : List (Nat × ℚ)) (u : MinerBank.MUser) (now : ℚ),
      (MinerBank.accrueOnInteraction catalog
          (MinerBank.accrueOnInteraction catalog u now) now).balance
        = (MinerBank.accrueOnInteraction catalog u now).balance) ∧
    (∀ (g bz : List (Nat × ℚ)) (u : GpuBot.GUser),
      (GpuBot.accrueEarnings g bz u u.lastAccrualAt).balanceBTC = u.balanceBTC ∧
      (GpuBot.accrueEarnings g bz u u.lastAccrualAt).balanceUSD = u.balanceUSD ∧
      (GpuBot.accrueEarnings g bz u u.lastAccrualAt).lastAccrualAt = u.lastAccrualAt ∧
      (GpuBot.accrueEarnings g bz u u.lastAccrualAt).miningWindowEnd
        = u.lastAccrualAt + GpuBot.miningWindow) ∧
    (∀ (g bz : List (Nat × ℚ)) (u : GpuBot.GUser) (now : ℚ),
      (GpuBot.accrueEarnings g bz (GpuBot.accrueEarnings g bz u now) now).balanceBTC
        = (GpuBot.accrueEarnings g bz u now).balanceBTC) := by
  refine ⟨fun catalog u => ?_, MinerBank.accrueOnInteraction_idem,
          fun g bz u => ?_, GpuBot.accrueEarnings_idem⟩
  · exact ⟨MinerBank.accrueOnInteraction_sameInstant catalog u u.lastAccrualAt rfl,
      (MinerBank.accrueOnInteraction_fields catalog u u.lastAccrualAt).1,
      (MinerBank.accrueOnInteraction_fields catalog u u.lastAccrualAt).2⟩
  · exact ⟨(GpuBot.accrueEarnings_sameInstant g bz u u.lastAccrualAt rfl).1,
      (GpuBot.accrueEarnings_sameInstant g bz u u.lastAccrualAt rfl).2,
      (GpuBot.accrueEarnings_fields g bz u u.lastAccrualAt).1,
      (GpuBot.accrueEarnings_fields g bz u u.lastAccrualAt).2⟩

open LedgerBot in
/-- C2 counterexample: the claim as stated fails on the code — a deposit
into an account whose closed flag is true succeeds and changes its
balance (no mutating operation ever consults the flag). -/
theorem C2_counterexample :
    (Deposit exSnapClosed 5 1 50 "").1.isErr = false ∧
    alookup (Deposit exSnapClosed 5 1 50 "").2.accounts 1
      = some { exAcctClosed with balance := 150 } := by
  decide

open LedgerBot in
/-- C2: (amended) deposit, withdraw and transfer never consult the closed
flag: on any stored account — closed or open — they succeed or fail
purely by the amount, existence and funds checks, and mutate the balance
exactly as for an open account; the closed flag only hides the account
from ListAccountsByUser. -/
theorem C2_amended_closedIgnored :
    (∀ (s : Snapshot) (now aid : Nat) (amount : Int) (note : String) (a : Account),
      alookup s.accounts aid = some a → a.id = aid → ¬amount ≤ 0 →
      alookup s.txs (s.nextTx + 1) = none →
      (Deposit s now aid amount note).1.isErr = false ∧
      alookup (Deposit s now aid amount note).2.accounts aid
        = some { a with balance := a.balance + amount }) ∧
    (∀ (s : Snapshot) (now aid : Nat) (amount : Int) (note : String) (a : Account),
      alookup s.accounts aid = some a → a.id = aid → ¬amount ≤ 0 →
      ¬a.balance < amount → alookup s.txs (s.nextTx + 1) = none →
      (Withdraw s now aid amount note).1.isErr = false ∧
      alookup (Withdraw s now aid amount note).2.accounts aid
        = some { a with balance := a.balance - amount }) ∧
    (∀ (s : Snapshot) (now : Nat) (r : Rates) (fromA toA : Nat) (amount : Int)
        (note : String) (fa ta : Account),
      alookup s.accounts fromA = some fa → alookup s.accounts toA = some ta →
      fa.id = fromA → ta.id = toA → fa.currency = ta.currency →
      ¬amount ≤ 0 → ¬fa.balance < amount → alookup s.txs (s.nextTx + 1) = none →
      (Transfer s now r fromA toA amount note).1.isErr = false) ∧
    (∀ (s : Snapshot) (uid : Nat), ∀ a ∈ listAccountsByUser s uid, a.closed = false) := by
  refine ⟨?_, ?_, ?_, ?_⟩
  · intro s now aid amount note a h2 hk hA htx
    have hup : alookup s.accounts a.id = some a := by rw [hk]; exact h2
    rw [Deposit_ok hA h2 hup htx]
    refine ⟨rfl, ?_⟩
    rw [← hk]
    exact alookup_aupdate_self hup
  · intro s now aid amount note a h2 hk hA hb htx
    have hup : alookup s.accounts a.id = some a := by rw [hk]; exact h2
    rw [Withdraw_ok hA h2 hb hup htx]
    refine ⟨rfl, ?_⟩
    rw [← hk]
    exact alookup_aupdate_self hup
  · intro s now r fromA toA amount note fa ta h2 h3 hf ht hc hA hb htx
    have h1 : alookup s.accounts fa.id = some fa := by rw [hf]; exact h2
    have h2up : alookup (aupdate s.accounts fa.id
        { fa with balance := fa.balance - amount }) ta.id
        = some (if ta.id = fa.id then { fa with balance := fa.balance - amount } else ta) := by
      by_cases hsame : ta.id = fa.id
      · rw [if_pos hsame, hsame]
        exact alookup_aupdate_self h1
      · rw [if_neg hsame, alookup_aupdate_ne (fun hx => hsame hx.symm), ht]
        exact h3
    rw [Transfer_same hA h2 h3 hc, transferFinish_ok hb h1 h2up htx]
    rfl
  · intro s uid a ha
    unfold listAccountsByUser at ha
    have := List.of_mem_filter ha
    simp at this
    exact this.2

open LedgerBot in
/-- C2 witness: applying the amended claim to the snapshot whose only
account is closed with balance 100: a deposit of 50 succeeds and the
closed account's balance becomes 150. -/
theorem C2_witness :
    (Deposit exSnapClosed 7 1 50 "").1.isErr = false ∧
    alookup (Deposit exSnapClosed 7 1 50 "").2.accounts 1
      = some { exAcctClosed with balance := exAcctClosed.balance + 50 } :=
  C2_amended_closedIgnored.1 exSnapClosed 7 1 50 "" exAcctClosed
    (by decide) (by decide) (by decide) (by decide)

open LedgerBot in
/-- C3: the failing input evaluated — a same-currency transfer of 500
from account 1 to itself (balance 1000) succeeds and leaves the account
with balance 1500: the debit applied to one in-memory copy is overwritten
by the credit applied to the other copy, so money is created and
senderBefore + receiverBefore = 2000 ≠ 3000 = senderAfter + receiverAfter. -/
theorem C3_selfTransferEval :
    (Transfer exSnapSelf 5 exRatesEmpty 1 1 500 "").1.isErr = false ∧
    alookup (Transfer exSnapSelf 5 exRatesEmpty 1 1 500 "").2.accounts 1
      = some { exAcctSelf with balance := 1500 } ∧
    exAcctSelf.balance + exAcctSelf.balance ≠ (1500 : Int) + 1500 := by
  decide

open LedgerBot in
/-- C4 counterexample: the claim as stated fails on the code under its
true int64 semantics — from a state in which every balance is
non-negative (sender 1 holds 1000, receiver 2 holds 2^63 - 1), the
same-currency transfer of 500 from 1 to 2 passes the only guard (the
sender's funds check), succeeds, and leaves the receiver's balance
wrapped to the negative value 2^63 - 1 + 500 - 2^64: an operation that
drives a balance below zero succeeds. -/
theorem C4_counterexample :
    (TransferW exSnapWrap 5 exRatesEmpty 1 2 500 "").1.isErr = false ∧
    alookup (TransferW exSnapWrap 5 exRatesEmpty 1 2 500 "").2.accounts 2
      = some { exAcctRich with balance := -9223372036854775309 } ∧
    (-9223372036854775309 : Int) < 0 := by
  decide

open LedgerBot in
/-- C4: (amended) insufficient-funds attempts are rejected with the
snapshot returned exactly as it was; a withdrawal can never drive an
in-range balance negative (the guard keeps the int64 subtraction in
range); but the transfer credit is unguarded: a successful same-currency
transfer whose credit pushes the receiver past 2^63 - 1 wraps the
receiver's balance negative, so balance >= 0 is an invariant of all
reachable states only in the absence of int64 overflow — equivalently,
in the unbounded-integer idealization of the arithmetic, under which
every operation sequence preserves non-negativity. -/
theorem C4_amended_noOverflow :
    (∀ (s : Snapshot) (ops : List Op), NonNeg s → NonNeg (execOps s ops)) ∧
    (∀ (s : Snapshot) (now aid : Nat) (amount : Int) (note : String) (a : Account),
      alookup s.accounts aid = some a → a.balance < amount → ¬amount ≤ 0 →
      WithdrawW s now aid amount note = (.err "недостаточно средств", s)) ∧
    (∀ (s : Snapshot) (now : Nat) (r : Rates) (fromA toA : Nat) (amount : Int)
        (note : String) (fa ta : Account),
      alookup s.accounts fromA = some fa → alookup s.accounts toA = some ta →
      fa.currency = ta.currency → fa.balance < amount → ¬amount ≤ 0 →
      TransferW s now r fromA toA amount note = (.err "недостаточно средств", s)) ∧
    (∀ (s : Snapshot) (now aid : Nat) (amount : Int) (note : String) (a : Account),
      alookup s.accounts aid = some a → a.id = aid → ¬amount ≤ 0 →
      ¬a.balance < amount → a.balance < 2 ^ 63 →
      alookup s.txs (s.nextTx + 1) = none →
      (WithdrawW s now aid amount note).1.isErr = false ∧
      alookup (WithdrawW s now aid amount note).2.accounts aid
        = some { a with balance := a.balance - amount } ∧
      0 ≤ a.balance - amount) ∧
    (∀ (s : Snapshot) (now : Nat) (r : Rates) (fromA toA : Nat) (amount : Int)
        (note : String) (fa ta : Account),
      alookup s.accounts fromA = some fa → alookup s.accounts toA = some ta →
      fa.id = fromA → ta.id = toA → ¬fromA = toA → fa.currency = ta.currency →
      ¬amount ≤ 0 → ¬fa.balance < amount → alookup s.txs (s.nextTx + 1) = none →
      2 ^ 63 ≤ ta.balance + amount → ta.balance + amount < 2 ^ 64 →
      (TransferW s now r fromA toA amount note).1.isErr = false ∧
      alookup (TransferW s now r fromA toA amount note).2.accounts toA
        = some { ta with balance := ta.balance + amount - 2 ^ 64 } ∧
      ta.balance + amount - 2 ^ 64 < 0) := by
  refine ⟨fun s ops hs => NonNeg_execOps ops hs, ?_, ?_, ?_, ?_⟩
  · intro s now aid amount note a h2 hb hA
    exact WithdrawW_insufficient hA h2 hb
  · intro s now r fromA toA amount note fa ta h2 h3 hc hb hA
    rw [TransferW_same hA h2 h3 hc, transferFinishW_insufficient hb]
  · intro s now aid amount note a h2 hk hA hb hrange htx
    have hup : alookup s.accounts a.id = some a := by rw [hk]; exact h2
    have hw : wrap64 (a.balance - amount) = a.balance - amount :=
      wrap64_eq_self (by omega) (by omega)
    rw [WithdrawW_ok hA h2 hb hup htx]
    refine ⟨rfl, ?_, by omega⟩
    rw [hw, ← hk]
    exact alookup_aupdate_self hup
  · intro s now r fromA toA amount note fa ta h2 h3 hfid htid hne hc hA hb htx hlo hhi
    have h1 : alookup s.accounts fa.id = some fa := by rw [hfid]; exact h2
    have hidne : ¬fa.id = ta.id := by rw [hfid, htid]; exact hne
    have h2up : alookup (aupdate s.accounts fa.id
        { fa with balance := wrap64 (fa.balance - amount) }) ta.id = some ta := by
      rw [alookup_aupdate_ne hidne, htid]
      exact h3
    have hw : wrap64 (ta.balance + amount) = ta.balance + amount - 2 ^ 64 :=
      wrap64_overflow hlo hhi
    rw [TransferW_same hA h2 h3 hc, transferFinishW_ok hb h1 h2up htx]
    refine ⟨rfl, ?_, by omega⟩
    rw [← htid]
    have := alookup_aupdate_self
      (v := { ta with balance := wrap64 (ta.balance + amount) }) h2up
    rw [this, hw]

open LedgerBot in
/-- C4 witness: a guarded withdrawal of 250 from the in-range balance
1000 succeeds, leaves 750, and stays non-negative. -/
theorem C4_witness :
    (WithdrawW exSnapSelf 9 1 250 "").1.isErr = false ∧
    alookup (WithdrawW exSnapSelf 9 1 250 "").2.accounts 1
      = some { exAcctSelf with balance := exAcctSelf.balance - 250 } ∧
    0 ≤ exAcctSelf.balance - 250 :=
  C4_amended_noOverflow.2.2.2.1 exSnapSelf 9 1 250 "" exAcctSelf
    (by decide) (by decide) (by decide) (by decide) (by decide) (by decide)

open LedgerBot in
/-- C5: under the reachable-state invariants (every stored transaction id
is at most NextTx, and every account sits under its own id), whenever
deposit, withdraw or transfer returns an error the snapshot — accounts,
users and transaction log alike — is exactly the one before the call; no
operation partially applies. -/
theorem C5_errorNoEffect (s : Snapshot) (hTx : TxBound s) (hKM : KeysMatchA s) :
    (∀ (now aid : Nat) (amount : Int) (note : String),
      (Deposit s now aid amount note).1.isErr = true →
      (Deposit s now aid amount note).2 = s) ∧
    (∀ (now aid : Nat) (amount : Int) (note : String),
      (Withdraw s now aid amount note).1.isErr = true →
      (Withdraw s now aid amount note).2 = s) ∧
    (∀ (now : Nat) (r : Rates) (fromA toA : Nat) (amount : Int) (note : String),
      (Transfer s now r fromA toA amount note).1.isErr = true →
      (Transfer s now r fromA toA amount note).2 = s) :=
  ⟨fun _ _ _ _ => Deposit_err_frame hTx,
   fun _ _ _ _ => Withdraw_err_frame hTx,
   fun _ _ _ _ _ _ => Transfer_err_frame hTx hKM⟩

open LedgerBot in
/-- C5 witness: on the one-account snapshot, a deposit of the invalid
amount -5 errors and the snapshot is returned unchanged. -/
theorem C5_witness : (Deposit exSnapSelf 9 1 (-5) "").2 = exSnapSelf :=
  (C5_errorNoEffect exSnapSelf
      (by intro p hp; simp [exSnapSelf, initSnapshot] at hp)
      (by intro p hp; simp [exSnapSelf, initSnapshot] at hp; subst hp; rfl)).1
    9 1 (-5) "" (by decide)

open LedgerBot in
/-- C6 counterexample: the claim as stated fails on the code — with three
transactions on account 7 created in id order 1, 2, 3 (ids 1 and 2 at the
same timestamp 10, id 3 earlier at 5), ListTxByAccount returns them as
[3, 2, 1]: the tie between ids 1 and 2 comes out id-DESCENDING, because
the naive swap sort orders by CreatedAt only and is not stable. -/
theorem C6_counterexample :
    listTxByAccount exSnapTies 7 0 = [exTx 3 5, exTx 2 10, exTx 1 10] ∧
    ¬ List.Pairwise (fun a b => a.createdAt < b.createdAt
        ∨ (a.createdAt = b.createdAt ∧ a.id ≤ b.id)) (listTxByAccount exSnapTies 7 0) := by
  decide

open LedgerBot in
/-- C6: (amended) ListTxByAccount returns exactly the transactions
referencing the account as sender or receiver (a permutation of that
filter), sorted ascending by createdAt — the order of createdAt ties is
NOT determined (it depends on map iteration order and the non-stable
swap sort, and can be id-descending) — and when limit > 0 the most
recent limit entries, i.e. the tail of the ascending order, are returned
in that order. -/
theorem C6_amended_history (s : Snapshot) (aid : Nat) (limit : Int) :
    (naiveSort (txFilter s aid)).Perm (txFilter s aid) ∧
    (naiveSort (txFilter s aid)).Pairwise (fun a b => a.createdAt ≤ b.createdAt) ∧
    (limit ≤ 0 → listTxByAccount s aid limit = naiveSort (txFilter s aid)) ∧
    (0 < limit →
      listTxByAccount s aid limit <:+ naiveSort (txFilter s aid) ∧
      (listTxByAccount s aid limit).length
        = min limit.toNat (naiveSort (txFilter s aid)).length) := by
  have heq : listTxByAccount s aid limit
      = if 0 < limit ∧ limit < ((naiveSort (txFilter s aid)).length : Int) then
          (naiveSort (txFilter s aid)).drop
            ((naiveSort (txFilter s aid)).length - limit.toNat)
        else naiveSort (txFilter s aid) := rfl
  refine ⟨naiveSort_perm _, naiveSort_sorted _, ?_, ?_⟩
  · intro hle
    rw [heq, if_neg (by push_neg; intro hpos; omega)]
  · intro hpos
    by_cases hlen : limit < ((naiveSort (txFilter s aid)).length : Int)
    · rw [heq, if_pos ⟨hpos, hlen⟩]
      constructor
      · exact List.drop_suffix _ _
      · rw [List.length_drop]
        omega
    · rw [heq, if_neg (by intro hx; exact hlen hx.2)]
      constructor
      · exact List.suffix_refl _
      · have := not_lt.mp hlen
        omega

open LedgerBot in
/-- C6 witness: on the three-transaction fixture with limit 2, the result
is a suffix of the ascending order and has exactly 2 entries. -/
theorem C6_witness :
    listTxByAccount exSnapTies 7 2 <:+ naiveSort (txFilter exSnapTies 7) ∧
    (listTxByAccount exSnapTies 7 2).length
      = min (2 : Int).toNat (naiveSort (txFilter exSnapTies 7)).length :=
  (C6_amended_history exSnapTies 7 2).2.2.2 (by decide)

open LedgerBot in
/-- C7: executing any sequence of commands against the store started from
the empty initial snapshot keeps, for every entity kind, the stored ids
strictly increasing in creation order (the association lists are built in
creation order), and in particular no two entities of the same kind ever
share an id. -/
theorem C7_monotonicIds (n : Nat) (ops : List Op) :
    KeysOrdered (execOps (initSnapshot n) ops).users ∧
    KeysOrdered (execOps (initSnapshot n) ops).accounts ∧
    KeysOrdered (execOps (initSnapshot n) ops).txs ∧
    ((execOps (initSnapshot n) ops).users.map Prod.fst).Nodup ∧
    ((execOps (initSnapshot n) ops).accounts.map Prod.fst).Nodup ∧
    ((execOps (initSnapshot n) ops).txs.map Prod.fst).Nodup := by
  obtain ⟨⟨hu, ha, ht⟩, _⟩ := StoreInv_execOps ops (StoreInv_init n)
  exact ⟨hu.2, ha.2, ht.2,
    hu.2.imp ne_of_lt, ha.2.imp ne_of_lt, ht.2.imp ne_of_lt⟩

open LedgerBot in
/-- C8 counterexample: the claim as stated fails on the code — "ZZZ" is
absent from the rate table, yet converting from "ZZZ" to "ZZZ" does not
fail with the unknown-currency error: equal (uppercased) currencies
return the amount unchanged before the table is consulted. -/
theorem C8_counterexample :
    exRates.pairs.lookup "ZZZ" = none ∧
    ConvertAmount exRates "ZZZ" "ZZZ" 5 = .ok 5 := by
  constructor
  · rfl
  · decide

open LedgerBot in
/-- C8: (amended) when the uppercased currencies coincide, ConvertAmount
returns the amount unchanged without consulting the table (even for
currencies absent from it); when they differ and both are present,
it returns exactly the specification formula — round half-up of
sourceAmountMajor / sourceRate * targetRate * 100, floored at a minimum
of 1 minor unit; when they differ and either is absent, it fails with
the unknown-currency error; and the formula itself fixes the
equal-currency result, since for any non-zero rate it returns the amount
unchanged. -/
theorem C8_amended_conversion :
    (∀ (r : Rates) (c1 c2 : String) (amount : Int),
      upperStr c1 = upperStr c2 → ConvertAmount r c1 c2 amount = .ok amount) ∧
    (∀ (r : Rates) (c1 c2 : String) (amount : Int) (fr tr : ℚ),
      upperStr c1 ≠ upperStr c2 →
      r.pairs.lookup (upperStr c1) = some fr →
      r.pairs.lookup (upperStr c2) = some tr →
      0 < amount →
      ConvertAmount r c1 c2 amount = .ok (specConvert fr tr amount)) ∧
    (∀ (r : Rates) (c1 c2 : String) (amount : Int),
      upperStr c1 ≠ upperStr c2 →
      (r.pairs.lookup (upperStr c1) = none ∨ r.pairs.lookup (upperStr c2) = none) →
      ConvertAmount r c1 c2 amount = .err "неизвестная валюта") ∧
    (∀ (rr : ℚ) (amount : Int), rr ≠ 0 → 0 < amount → specConvert rr rr amount = amount) :=
  ⟨fun _ _ _ _ he => ConvertAmount_same he,
   fun _ _ _ _ _ _ hne h1 h2 _ => ConvertAmount_eq_spec hne h1 h2,
   fun _ _ _ _ hne h => ConvertAmount_unknown hne h,
   fun _ _ hr ha => specConvert_id hr ha⟩

open LedgerBot in
/-- C8 witness: converting 500 minor units of RUB to USD under the
default rates (RUB rate 1, USD rate 27/2500 = 0.0108) yields the spec
formula's value, which evaluates to 5 minor units of USD. -/
theorem C8_witness :
    ConvertAmount exRates "RUB" "USD" 500 = .ok (specConvert 1 (27 / 2500) 500) ∧
    specConvert 1 (27 / 2500) 500 = 5 := by
  constructor
  · exact C8_amended_conversion.2.1 exRates "RUB" "USD" 500 1 (27 / 2500)
      (by decide) rfl rfl (by norm_num)
  · norm_num [specConvert]

open LedgerBot in
/-- C10: NextIDs increments all three sequence counters by one together
and returns exactly those incremented values, leaving users, accounts,
transactions, version and createdAt untouched and refreshing only
updatedAt; consequently a successful Deposit — which creates only a
transaction — still advances the user and account counters by one, so
per-kind id sequences have gaps. -/
theorem C10_nextIDsFrame (s : Snapshot) (now : Nat) :
    (nextIDs s now).1 = (s.nextUser + 1, s.nextAcc + 1, s.nextTx + 1) ∧
    (nextIDs s now).2.nextUser = s.nextUser + 1 ∧
    (nextIDs s now).2.nextAcc = s.nextAcc + 1 ∧
    (nextIDs s now).2.nextTx = s.nextTx + 1 ∧
    (nextIDs s now).2.users = s.users ∧
    (nextIDs s now).2.accounts = s.accounts ∧
    (nextIDs s now).2.txs = s.txs ∧
    (nextIDs s now).2.version = s.version ∧
    (nextIDs s now).2.createdAt = s.createdAt ∧
    (nextIDs s now).2.updatedAt = now ∧
    (∀ (aid : Nat) (amount : Int) (note : String),
      (Deposit s now aid amount note).1.isErr = false →
      (Deposit s now aid amount note).2.nextUser = s.nextUser + 1 ∧
      (Deposit s now aid amount note).2.nextAcc = s.nextAcc + 1 ∧
      (Deposit s now aid amount note).2.nextTx = s.nextTx + 1) := by
  refine ⟨rfl, rfl, rfl, rfl, rfl, rfl, rfl, rfl, rfl, rfl, ?_⟩
  intro aid amount note hok
  by_cases hA : amount ≤ 0
  · rw [Deposit_nonpos hA] at hok
    simp [Res.isErr] at hok
  · cases h2 : alookup s.accounts aid with
    | none =>
      rw [Deposit_noacct hA h2] at hok
      simp [Res.isErr] at hok
    | some a =>
      cases hup : alookup s.accounts a.id with
      | none =>
        rw [Deposit_upd_none hA h2 hup] at hok
        simp [Res.isErr] at hok
      | some w =>
        cases htx : alookup s.txs (s.nextTx + 1) with
        | none =>
          rw [Deposit_ok hA h2 hup htx]
          exact ⟨rfl, rfl, rfl⟩
        | some t0 =>
          rw [Deposit_txdup hA h2 hup htx] at hok
          simp [Res.isErr] at hok

open LedgerBot in
/-- C10 witness: a successful deposit of 100 into account 1 of the
one-account snapshot advances all three counters by one, although it
creates only a transaction. -/
theorem C10_witness :
    (Deposit exSnapSelf 5 1 100 "").2.nextUser = exSnapSelf.nextUser + 1 ∧
    (Deposit exSnapSelf 5 1 100 "").2.nextAcc = exSnapSelf.nextAcc + 1 ∧
    (Deposit exSnapSelf 5 1 100 "").2.nextTx = exSnapSelf.nextTx + 1 :=
  (C10_nextIDsFrame exSnapSelf 5).2.2.2.2.2.2.2.2.2.2 1 100 "" (by decide)
